import Mathlib

/-!
# tansa: trajectory combinators and the feasibility checker

A shallow embedding of `include/tansa/trajectory.h`,
`src/model/feasibility.cpp` and `src/mocap/mocap.cpp`.

* Numbers: a C++ `double` is the rational number that it stands for.  Where a
  statement depends on the rounding of a double operation, the operation is
  `addDouble` or `mulDouble` (`roundDouble`: binary64, round to nearest, ties
  to even): `sampleLoopDouble` is the sampling loop with the rounded
  `t += 0.01`, `TransformedTrajectoryDouble` is `TransformedTrajectory` with
  the rounded operations of Eigen.  `sampleLoop`, `TransformedTrajectory` and
  the other definitions compute without rounding, and their theorems say only
  what does not depend on it.  Eigen's `norm()` is a square root; the code
  only ever compares a norm with a constant, and those comparisons are decided
  on squares (`normLt`, `normGt`), which is the same comparison over the reals
  (`normLt_iff_sqrt`, `normGt_iff_sqrt`).
* State: the member `errors` of the checker is passed in and handed back; the
  lines written to `std::cout` are returned as a list.
* Polymorphism: a `Trajectory` is its two times and its `evaluate`; an `Action`
  is a `MotionAction` or a light action.
* `std::sort` fixes its result up to the order of equal elements.  `StdSort`
  is an implementation that returns a sorted permutation, and `checkWith S` is
  `check(Routine&)` with the implementation `S`; `check` is `checkWith` with
  the stable insertion sort (`check_eq_checkWith`), and its theorems use of
  the sort only that it returns a sorted permutation.
* `operator<` of `FeasibilityError` and the constant `GRAVITY_MS` live in
  model.h, which is not among the sources: the order is the order of the
  source lines, as the spec has it, and the constant is the parameter `g`.
* `unsigned j` and `int line` are `Nat` and `Int`; `homes[j]` is read with a
  default where the vector is too short (undefined behaviour in the code).
* Motion capture: the NatNet structs and the vehicle are given by the fields
  that the callback reads; the effect of the callback is the list of the calls
  of `mocap_update` that it makes, in order.
-/

namespace tansa

/-! ## Eigen vectors and matrices -/

/-- Eigen `Vector3d`: three coordinates. -/
structure Vector3d where
  x : ℚ
  y : ℚ
  z : ℚ
  deriving DecidableEq

/-- The type `Point` of trajectory.h (`typedef Vector3d Point`). -/
abbrev Point := Vector3d

namespace Vector3d

/-- Coefficient-wise sum (`operator+`, `operator+=`). -/
def add (a b : Vector3d) : Vector3d := ⟨a.x + b.x, a.y + b.y, a.z + b.z⟩

/-- Coefficient-wise difference (`operator-`). -/
def sub (a b : Vector3d) : Vector3d := ⟨a.x - b.x, a.y - b.y, a.z - b.z⟩

instance : Add Vector3d := ⟨add⟩
instance : Sub Vector3d := ⟨sub⟩

/-- The vector `Vector3d(0,0,0)`. -/
def zero : Vector3d := ⟨0, 0, 0⟩

/-- Eigen `squaredNorm()`. -/
def squaredNorm (a : Vector3d) : ℚ := a.x * a.x + a.y * a.y + a.z * a.z

/-- The comparison `a.norm() < c`, decided on squares. -/
def normLt (a : Vector3d) (c : ℚ) : Bool := decide (0 < c ∧ a.squaredNorm < c * c)

/-- The comparison `a.norm() > c`, decided on squares. -/
def normGt (a : Vector3d) (c : ℚ) : Bool := decide (c < 0 ∨ c * c < a.squaredNorm)

end Vector3d

/-- Eigen `Matrix3d`, given by its nine coefficients `mij` (row i, column j). -/
structure Matrix3d where
  m00 : ℚ
  m01 : ℚ
  m02 : ℚ
  m10 : ℚ
  m11 : ℚ
  m12 : ℚ
  m20 : ℚ
  m21 : ℚ
  m22 : ℚ
  deriving DecidableEq

namespace Matrix3d

/-- Matrix-vector product `m * v`, without rounding (`mulVecDouble` has the
rounded operations). -/
def mulVec (m : Matrix3d) (v : Vector3d) : Vector3d :=
  ⟨m.m00 * v.x + m.m01 * v.y + m.m02 * v.z,
   m.m10 * v.x + m.m11 * v.y + m.m12 * v.z,
   m.m20 * v.x + m.m21 * v.y + m.m22 * v.z⟩

/-- Matrix-matrix product `a * b`. -/
def mul (a b : Matrix3d) : Matrix3d :=
  ⟨a.m00 * b.m00 + a.m01 * b.m10 + a.m02 * b.m20,
   a.m00 * b.m01 + a.m01 * b.m11 + a.m02 * b.m21,
   a.m00 * b.m02 + a.m01 * b.m12 + a.m02 * b.m22,
   a.m10 * b.m00 + a.m11 * b.m10 + a.m12 * b.m20,
   a.m10 * b.m01 + a.m11 * b.m11 + a.m12 * b.m21,
   a.m10 * b.m02 + a.m11 * b.m12 + a.m12 * b.m22,
   a.m20 * b.m00 + a.m21 * b.m10 + a.m22 * b.m20,
   a.m20 * b.m01 + a.m21 * b.m11 + a.m22 * b.m21,
   a.m20 * b.m02 + a.m21 * b.m12 + a.m22 * b.m22⟩

/-- The identity matrix. -/
def identity : Matrix3d := ⟨1, 0, 0, 0, 1, 0, 0, 0, 1⟩

end Matrix3d

/-! ## trajectory.h -/

/-- Evaluation of a trajectory at a point in time. -/
structure TrajectoryState where
  position : Point
  velocity : Point
  acceleration : Point
  deriving DecidableEq

/-- The abstract class `Trajectory`: the two protected fields `t1`, `t2`
and the virtual method `evaluate`. -/
structure Trajectory where
  t1 : ℚ
  t2 : ℚ
  evaluate : ℚ → TrajectoryState

namespace Trajectory

/-- The method `startTime()`. -/
def startTime (traj : Trajectory) : ℚ := traj.t1

/-- The method `endTime()`. -/
def endTime (traj : Trajectory) : ℚ := traj.t2

end Trajectory

/-- The class `CompoundTrajectory`: constructor and `evaluate`. -/
def CompoundTrajectory (x1 x2 : Trajectory) (t1 t2 : ℚ) : Trajectory where
  t1 := t1
  t2 := t2
  evaluate := fun t =>
    let s1 := x1.evaluate t
    let s2 := x2.evaluate t
    let s1 := { s1 with position := s1.position + s2.position }
    let s1 := { s1 with velocity := s1.velocity + s2.velocity }
    let s1 := { s1 with acceleration := s1.acceleration + s2.acceleration }
    s1

/-- The class `TransformedTrajectory`: constructor and `evaluate`. -/
def TransformedTrajectory (x : Trajectory) (m : Matrix3d) (p : Vector3d) (t1 t2 : ℚ) :
    Trajectory where
  t1 := t1
  t2 := t2
  evaluate := fun t =>
    let s := x.evaluate t
    let s := { s with position := m.mulVec s.position + p }
    let s := { s with velocity := m.mulVec s.velocity }
    let s := { s with acceleration := m.mulVec s.acceleration }
    s

/-! ## feasibility.cpp -/

/-- The struct `FeasibilityError`: an advisory diagnostic. -/
structure FeasibilityError where
  line : Int
  text : String
  deriving DecidableEq

/-- The class `FeasibilityChecker`: its state is the member `errors`. -/
structure FeasibilityChecker where
  errors : List FeasibilityError

/-- Modelled from the spec: `operator<` of `FeasibilityError` is declared in
model.h, which is not among the sources; the spec sorts the errors "by source
line".  This is the non-strict order that `std::sort` establishes. -/
def FeasibilityError.le (a b : FeasibilityError) : Prop := a.line ≤ b.line

instance (a b : FeasibilityError) : Decidable (FeasibilityError.le a b) :=
  inferInstanceAs (Decidable (a.line ≤ b.line))

instance : IsTotal FeasibilityError FeasibilityError.le :=
  ⟨fun a b => Int.le_total a.line b.line⟩

instance : IsTrans FeasibilityError FeasibilityError.le :=
  ⟨fun _ _ _ h1 h2 => Int.le_trans h1 h2⟩

/-- The call `std::sort(errors.begin(), errors.end())`: a sort by
`operator<`, here the stable insertion sort, one of the implementations that
`StdSort` admits. -/
def sortErrors (errors : List FeasibilityError) : List FeasibilityError :=
  errors.insertionSort FeasibilityError.le

/-- The library call `std::to_string(double)`: fixed notation with six
decimals, the exact value rounded to the nearest, ties to even. -/
def to_string_double (v : ℚ) : String :=
  let q : ℚ := |v| * 1000000
  let f : ℤ := ⌊q⌋
  let n : ℕ :=
    (if q - f < 1 / 2 then f
      else if 1 / 2 < q - f then f + 1
      else if f % 2 = 0 then f else f + 1).toNat
  let frac := toString (n % 1000000)
  (if v < 0 then "-" else "") ++ toString (n / 1000000) ++ "." ++
    "".pushn '0' (6 - frac.length) ++ frac

/-- The class `MotionAction`: an action that carries a path (`GetPath()`). -/
structure MotionAction where
  startTime : ℚ
  endTime : ℚ
  line : Int
  path : Trajectory

/-- An `Action` of a drone: either a `MotionAction` or a light action.  Both
have a start time, an end time and a source line. -/
inductive Action where
  | motion (ma : MotionAction)
  | light (startTime endTime : ℚ) (line : Int)

namespace Action

/-- The method `GetStartTime()`. -/
def GetStartTime : Action → ℚ
  | motion ma => ma.startTime
  | light s _ _ => s

/-- The method `GetEndTime()`. -/
def GetEndTime : Action → ℚ
  | motion ma => ma.endTime
  | light _ e _ => e

/-- The public member `line`. -/
def line : Action → Int
  | motion ma => ma.line
  | light _ _ l => l

/-- The method `IsLightAction()`. -/
def IsLightAction : Action → Bool
  | motion _ => false
  | light _ _ _ => true

/-- The cast `dynamic_cast<MotionAction *>(a)`. -/
def asMotion : Action → Option MotionAction
  | motion ma => some ma
  | light _ _ _ => none

end Action

/-- A `Routine`: per drone a collection of actions, and one home per drone.
The code reads `homes[j]` for every `j < actions.size()`. -/
structure Routine where
  actions : List (List Action)
  homes : List Point

/-- The lambda `floatComp` of `check(Routine&)`. -/
def floatComp (a b : ℚ) : Bool := decide (|a - b| < 0.1)

/-- The lambda `pointComp` of `check(Routine&)`; the outer `fabs` of a norm
is the norm. -/
def pointComp (a b : Point) : Bool := (a - b).normLt 0.1

/-- The locals of the sampling loop of `check(Trajectory::Ptr, int)` together
with the error list. -/
structure SampleState where
  gravityFlag : Bool
  velocityFlag : Bool
  accelFlag : Bool
  errors : List FeasibilityError

/-- The body of the sampling loop at time `t`; `g` is the constant
`GRAVITY_MS` of model.h. -/
def sampleBody (g : ℚ) (traj : Trajectory) (line : Int) (t : ℚ) (st : SampleState) :
    SampleState :=
  let s := traj.evaluate t
  let st :=
    if !st.velocityFlag && s.velocity.normGt 2.5 then
      { st with velocityFlag := true, errors := st.errors ++ [⟨line, "Going too fast!"⟩] }
    else st
  let accel_total := s.acceleration + (⟨0, 0, g⟩ : Vector3d)
  let st :=
    if !st.gravityFlag && decide (accel_total.z < 0) then
      { st with gravityFlag := true,
                errors := st.errors ++ [⟨line, "Accelerating down too fast!"⟩] }
    else st
  let st :=
    if !st.accelFlag && accel_total.normGt (2 * g * 0.8) then
      { st with accelFlag := true, errors := st.errors ++ [⟨line, "Accelerating too fast!"⟩] }
    else st
  st

/-- The loop `for(double t = ...; t < traj->endTime(); t += 0.01)`, entered
at time `t`, with the sum `t + 0.01` taken without rounding
(`sampleLoopDouble` has the rounded sum). -/
def sampleLoop (g : ℚ) (traj : Trajectory) (line : Int) (t : ℚ) (st : SampleState) :
    SampleState :=
  if t < traj.endTime then
    sampleLoop g traj line (t + 0.01) (sampleBody g traj line t st)
  else st
termination_by ⌈(traj.endTime - t) * 100⌉.toNat
decreasing_by
  have e : (traj.endTime - (t + 0.01)) * 100 = (traj.endTime - t) * 100 - 1 := by
    norm_num
    ring
  have hp : 0 < ⌈(traj.endTime - t) * 100⌉ := Int.ceil_pos.2 (by linarith)
  rw [e, Int.ceil_sub_one]
  omega

/-- The method `FeasibilityChecker::check(Trajectory::Ptr traj, int line)`:
the returned boolean and the checker after the call. -/
def FeasibilityChecker.checkTraj (self : FeasibilityChecker) (g : ℚ) (traj : Trajectory)
    (line : Int) : Bool × FeasibilityChecker :=
  let st := sampleLoop g traj line traj.startTime ⟨false, false, false, self.errors⟩
  (false, ⟨st.errors⟩)

/-- The text of the time-discontinuity error. -/
def timeText (j : Nat) (sTime startTime : ℚ) : String :=
  "Time Discontinuity for Drone: " ++ toString j ++ " with start time: " ++
    to_string_double sTime ++ ". Last command ended at : " ++ to_string_double startTime

/-- The text of the spatial-discontinuity error. -/
def spatialText (j : Nat) (startPoint actionStart : Point) (sTime : ℚ) : String :=
  "Spatial Discontinuity for Drone: " ++ toString j ++ ". Jumping from point: " ++
    "[" ++ to_string_double startPoint.x ++ " " ++ to_string_double startPoint.y ++ " " ++
    to_string_double startPoint.z ++ "]" ++
    " to point: [" ++ to_string_double actionStart.x ++ " " ++
    to_string_double actionStart.y ++ " " ++ to_string_double actionStart.z ++ "]" ++ "\n" ++
    "at start time: " ++ to_string_double sTime

/-- The text of the velocity/acceleration error. -/
def velAccText : String := "Velocity/Acceleration discontinuity: Missing transition?"

/-- The locals `startPoint`, `startTime` of the loop over the drones of
`check(Routine&)`, together with the error list. -/
structure WalkState where
  startPoint : TrajectoryState
  startTime : ℚ
  errors : List FeasibilityError

/-- The body of the loop over the actions of drone `j`, for the action `a`:
a light action is skipped (`continue`), any other action is a
`MotionAction` (`ma`, the result of the dynamic cast). -/
def actionBody (g : ℚ) (j : Nat) (st : WalkState) (a : Action) : WalkState :=
  match a with
  | Action.light _ _ _ => st
  | Action.motion ma =>
    let sTime := ma.startTime
    let eTime := ma.endTime
    let errors :=
      if !floatComp sTime st.startTime then
        st.errors ++ [⟨ma.line, timeText j sTime st.startTime⟩]
      else st.errors
    let startTime := eTime
    let actionStart := ma.path.evaluate ma.startTime
    let errors :=
      if !pointComp actionStart.position st.startPoint.position then
        errors ++ [⟨ma.line, spatialText j st.startPoint.position actionStart.position sTime⟩]
      else errors
    let errors :=
      if !pointComp actionStart.velocity st.startPoint.velocity ||
          !pointComp actionStart.acceleration st.startPoint.acceleration then
        errors ++ [⟨ma.line, velAccText⟩]
      else errors
    let errors := ((FeasibilityChecker.mk errors).checkTraj g ma.path ma.line).2.errors
    ⟨ma.path.evaluate ma.endTime, startTime, errors⟩

/-- The call `std::sort(actions[j].begin(), actions[j].end(), ...)` with the
comparison of start times, here the stable insertion sort, one of the
implementations that `StdSort` admits. -/
def sortActions (acts : List Action) : List Action :=
  acts.insertionSort (fun lhs rhs => lhs.GetStartTime ≤ rhs.GetStartTime)

/-- The state with which the walk over drone `j` starts. -/
def droneInit (homes : List Point) (j : Nat) (errors : List FeasibilityError) : WalkState :=
  ⟨⟨homes.getD j Vector3d.zero, Vector3d.zero, Vector3d.zero⟩, 0, errors⟩

/-- One iteration of the loop over the drones: the walk over the sorted
actions of drone `j`. -/
def droneBody (g : ℚ) (homes : List Point) (j : Nat) (acts : List Action)
    (errors : List FeasibilityError) : List FeasibilityError :=
  ((sortActions acts).foldl (actionBody g j) (droneInit homes j errors)).errors

/-- The loop `for (unsigned j = 0; j < actions.size(); j++)`, entered at
drone `j` with the remaining drones `rest`. -/
def droneLoop (g : ℚ) (homes : List Point) :
    Nat → List (List Action) → List FeasibilityError → List FeasibilityError
  | _, [], errors => errors
  | j, acts :: rest, errors => droneLoop g homes (j + 1) rest (droneBody g homes j acts errors)

/-- What `check(Routine&)` leaves behind: the returned boolean, the checker
after the call and the lines written to `std::cout`. -/
structure CheckResult where
  ret : Bool
  checker : FeasibilityChecker
  out : List String

/-- The method `FeasibilityChecker::check(Routine &r)`. -/
def FeasibilityChecker.check (self : FeasibilityChecker) (g : ℚ) (r : Routine) : CheckResult :=
  let errors := droneLoop g r.homes 0 r.actions self.errors
  let errors := sortErrors errors
  let out := errors.map (fun s => "Line " ++ toString s.line ++ ": " ++ s.text)
  ⟨decide (errors.length = 0), ⟨errors⟩, out⟩

/-! ## The library call `std::sort` -/

/-- An implementation of `std::sort` for the two calls in `check(Routine&)`.
The C++ standard fixes the result of `std::sort` up to the order of equivalent
elements: it is a permutation of the range that is sorted with respect to the
comparison. -/
structure StdSort where
  sortActions : List Action → List Action
  sortErrors : List FeasibilityError → List FeasibilityError
  actions_perm : ∀ l, (sortActions l).Perm l
  actions_sorted : ∀ l,
    List.Sorted (fun lhs rhs : Action => lhs.GetStartTime ≤ rhs.GetStartTime) (sortActions l)
  errors_perm : ∀ l, (sortErrors l).Perm l
  errors_sorted : ∀ l, List.Sorted FeasibilityError.le (sortErrors l)

instance : IsTotal Action (fun lhs rhs => lhs.GetStartTime ≤ rhs.GetStartTime) :=
  ⟨fun a b => le_total a.GetStartTime b.GetStartTime⟩

instance : IsTrans Action (fun lhs rhs => lhs.GetStartTime ≤ rhs.GetStartTime) :=
  ⟨fun _ _ _ h1 h2 => le_trans h1 h2⟩

/-- The implementation that keeps the encounter order of equal elements: the
one of `sortActions` and `sortErrors`. -/
def stableSort : StdSort where
  sortActions := tansa.sortActions
  sortErrors := tansa.sortErrors
  actions_perm := fun l => List.perm_insertionSort _ l
  actions_sorted := fun l => List.sorted_insertionSort _ l
  errors_perm := fun l => List.perm_insertionSort _ l
  errors_sorted := fun l => List.sorted_insertionSort _ l

/-- An implementation that, like an introsort, keeps the encounter order of
equal elements in short ranges only: up to 16 elements it is the stable
insertion sort, a longer range is taken from its last element to its first, so
that equal elements come out in reverse. -/
def reorderingSort : StdSort where
  sortActions := fun l =>
    if l.length ≤ 16 then tansa.sortActions l else tansa.sortActions l.reverse
  sortErrors := fun l =>
    if l.length ≤ 16 then tansa.sortErrors l else tansa.sortErrors l.reverse
  actions_perm := fun l => by
    dsimp only
    split_ifs
    · exact List.perm_insertionSort _ l
    · exact (List.perm_insertionSort _ l.reverse).trans (List.reverse_perm l)
  actions_sorted := fun l => by
    dsimp only
    split_ifs
    · exact List.sorted_insertionSort _ l
    · exact List.sorted_insertionSort _ l.reverse
  errors_perm := fun l => by
    dsimp only
    split_ifs
    · exact List.perm_insertionSort _ l
    · exact (List.perm_insertionSort _ l.reverse).trans (List.reverse_perm l)
  errors_sorted := fun l => by
    dsimp only
    split_ifs
    · exact List.sorted_insertionSort _ l
    · exact List.sorted_insertionSort _ l.reverse

/-- One iteration of the loop over the drones, with the implementation `S` of
`std::sort`. -/
def droneBodyWith (S : StdSort) (g : ℚ) (homes : List Point) (j : Nat) (acts : List Action)
    (errors : List FeasibilityError) : List FeasibilityError :=
  ((S.sortActions acts).foldl (actionBody g j) (droneInit homes j errors)).errors

/-- The loop over the drones, with the implementation `S` of `std::sort`. -/
def droneLoopWith (S : StdSort) (g : ℚ) (homes : List Point) :
    Nat → List (List Action) → List FeasibilityError → List FeasibilityError
  | _, [], errors => errors
  | j, acts :: rest, errors =>
    droneLoopWith S g homes (j + 1) rest (droneBodyWith S g homes j acts errors)

/-- The method `FeasibilityChecker::check(Routine &r)`, with the
implementation `S` of `std::sort`. -/
def FeasibilityChecker.checkWith (self : FeasibilityChecker) (S : StdSort) (g : ℚ)
    (r : Routine) : CheckResult :=
  let errors := droneLoopWith S g r.homes 0 r.actions self.errors
  let errors := S.sortErrors errors
  let out := errors.map (fun s => "Line " ++ toString s.line ++ ": " ++ s.text)
  ⟨decide (errors.length = 0), ⟨errors⟩, out⟩

/-! ## Double arithmetic -/

/-- The result of a double operation whose exact result is `x`: IEEE 754
binary64 rounding to nearest, ties to even, with 53 significant bits (the
exponent range is not bounded: no overflow, no subnormal numbers). -/
def roundDouble (x : ℚ) : ℚ :=
  if x = 0 then 0
  else
    let e : ℤ := Int.log 2 |x|
    let u : ℚ := (2 : ℚ) ^ (e - 52)
    let q : ℚ := x / u
    let n : ℤ := ⌊q⌋
    let m : ℤ :=
      if q - n < 1 / 2 then n
      else if 1 / 2 < q - n then n + 1
      else if n % 2 = 0 then n else n + 1
    m * u

/-- The double sum `a + b`. -/
def addDouble (a b : ℚ) : ℚ := roundDouble (a + b)

/-- The double product `a * b`. -/
def mulDouble (a b : ℚ) : ℚ := roundDouble (a * b)

/-- The loop `for(double t = ...; t < traj->endTime(); t += 0.01)` with the
loop variable as a double: `t += 0.01` adds the double nearest to 0.01 and
rounds the sum. The loop is entered at time `t`; the result is `none` when the
loop has not ended after `fuel` further tests of its condition. -/
def sampleLoopDouble (g : ℚ) (traj : Trajectory) (line : Int) :
    Nat → ℚ → SampleState → Option SampleState
  | 0, t, st => if t < traj.endTime then none else some st
  | fuel + 1, t, st =>
    if t < traj.endTime then
      sampleLoopDouble g traj line fuel (addDouble t (roundDouble 0.01))
        (sampleBody g traj line t st)
    else some st

/-- The double sum of two vectors, coefficient by coefficient. -/
def Vector3d.addDouble (a b : Vector3d) : Vector3d :=
  ⟨tansa.addDouble a.x b.x, tansa.addDouble a.y b.y, tansa.addDouble a.z b.z⟩

/-- The double product `m * v`: each product and each sum is rounded. -/
def Matrix3d.mulVecDouble (m : Matrix3d) (v : Vector3d) : Vector3d :=
  ⟨addDouble (addDouble (mulDouble m.m00 v.x) (mulDouble m.m01 v.y)) (mulDouble m.m02 v.z),
   addDouble (addDouble (mulDouble m.m10 v.x) (mulDouble m.m11 v.y)) (mulDouble m.m12 v.z),
   addDouble (addDouble (mulDouble m.m20 v.x) (mulDouble m.m21 v.y)) (mulDouble m.m22 v.z)⟩

/-- The double product `a * b` of two matrices, column by column. -/
def Matrix3d.mulMatDouble (a b : Matrix3d) : Matrix3d :=
  let c0 := a.mulVecDouble ⟨b.m00, b.m10, b.m20⟩
  let c1 := a.mulVecDouble ⟨b.m01, b.m11, b.m21⟩
  let c2 := a.mulVecDouble ⟨b.m02, b.m12, b.m22⟩
  ⟨c0.x, c1.x, c2.x, c0.y, c1.y, c2.y, c0.z, c1.z, c2.z⟩

/-- The class `TransformedTrajectory` with the double operations of Eigen:
`evaluate` rounds each product and each sum. -/
def TransformedTrajectoryDouble (x : Trajectory) (m : Matrix3d) (p : Vector3d) (t1 t2 : ℚ) :
    Trajectory where
  t1 := t1
  t2 := t2
  evaluate := fun t =>
    let s := x.evaluate t
    let s := { s with position := (m.mulVecDouble s.position).addDouble p }
    let s := { s with velocity := m.mulVecDouble s.velocity }
    let s := { s with acceleration := m.mulVecDouble s.acceleration }
    s

/-! ## mocap.cpp -/

/-- The NatNet struct `sRigidBodyData`, with the fields that the callback
reads: the identifier, the position, the orientation and the `short params`. -/
structure sRigidBodyData where
  ID : Int
  x : ℚ
  y : ℚ
  z : ℚ
  qx : ℚ
  qy : ℚ
  qz : ℚ
  qw : ℚ
  params : Int

/-- The NatNet struct `sFrameOfMocapData`: the first `nRigidBodies` entries of
the array `RigidBodies`. -/
structure sFrameOfMocapData where
  RigidBodies : List sRigidBodyData

/-- Eigen `Quaterniond`, with the coefficients in the order of the
constructor `Quaterniond(w, x, y, z)`. -/
structure Quaterniond where
  w : ℚ
  x : ℚ
  y : ℚ
  z : ℚ
  deriving DecidableEq

/-- One call `vehicle->mocap_update(pos, quat, t)`. -/
structure MocapUpdate (V : Type) where
  vehicle : V
  pos : Vector3d
  quat : Quaterniond
  t : Nat

/-- The class `Mocap`: the map `tracked` from rigid body identifiers to
vehicles. -/
structure Mocap (V : Type) where
  tracked : Int → Option V

/-- The method `Mocap::track(Vehicle *v, int id)`. -/
def Mocap.track {V : Type} (self : Mocap V) (v : V) (id : Int) : Mocap V :=
  ⟨fun k => if k = id then some v else self.tracked k⟩

/-- The loop over the rigid bodies of `mocap_callback`, with timestamp `t`:
the calls of `mocap_update` that it makes, in order. -/
def mocapLoop {V : Type} (inst : Mocap V) (t : Nat) : List sRigidBodyData → List (MocapUpdate V)
  | [] => []
  | rb :: rest =>
    let id := rb.ID
    match inst.tracked id with
    | none => mocapLoop inst t rest
    | some vehicle =>
      let bTrackingValid : Bool := decide (Int.land rb.params 0x01 ≠ 0)
      if !bTrackingValid then mocapLoop inst t rest
      else
        let pos : Vector3d := ⟨-rb.x, rb.z, rb.y⟩
        let quat : Quaterniond := ⟨rb.qw, -rb.qx, rb.qz, rb.qy⟩
        ⟨vehicle, pos, quat, t⟩ :: mocapLoop inst t rest

/-- The function `mocap_callback(pFrameOfData, pUserData)`: the calls of
`mocap_update` that it makes, in order. -/
def mocap_callback {V : Type} (pFrameOfData : sFrameOfMocapData) (inst : Mocap V) :
    List (MocapUpdate V) :=
  let t : Nat := 0
  mocapLoop inst t pFrameOfData.RigidBodies

/-! ## Vocabulary of the statements -/

/-- The times at which the sampling loop, entered at time `t`, runs its body. -/
def sampleTimesFrom (tEnd : ℚ) (t : ℚ) : List ℚ :=
  if t < tEnd then t :: sampleTimesFrom tEnd (t + 0.01) else []
termination_by ⌈(tEnd - t) * 100⌉.toNat
decreasing_by
  have e : (tEnd - (t + 0.01)) * 100 = (tEnd - t) * 100 - 1 := by
    norm_num
    ring
  have hp : 0 < ⌈(tEnd - t) * 100⌉ := Int.ceil_pos.2 (by linarith)
  rw [e, Int.ceil_sub_one]
  omega

/-- The sampled times of `check(Trajectory::Ptr, int)`. -/
def sampleTimes (traj : Trajectory) : List ℚ := sampleTimesFrom traj.endTime traj.startTime

/-- The speed test of the sampling loop at time `t`. -/
def speedViolation (traj : Trajectory) (t : ℚ) : Bool :=
  (traj.evaluate t).velocity.normGt 2.5

/-- The vertical-acceleration test of the sampling loop at time `t`. -/
def gravityViolation (g : ℚ) (traj : Trajectory) (t : ℚ) : Bool :=
  decide (((traj.evaluate t).acceleration + (⟨0, 0, g⟩ : Vector3d)).z < 0)

/-- The acceleration-magnitude test of the sampling loop at time `t`. -/
def accelViolation (g : ℚ) (traj : Trajectory) (t : ℚ) : Bool :=
  ((traj.evaluate t).acceleration + (⟨0, 0, g⟩ : Vector3d)).normGt (2 * g * 0.8)

/-- The errors that `check(Trajectory::Ptr, int)` appends to a checker. -/
def trajAppended (c : FeasibilityChecker) (g : ℚ) (traj : Trajectory) (line : Int) :
    List FeasibilityError :=
  (c.checkTraj g traj line).2.errors.drop c.errors.length

/-- The errors recorded during the walk of `check(Routine&)` over all drones,
in the order in which they are pushed. -/
def walkErrors (g : ℚ) (r : Routine) : List FeasibilityError :=
  droneLoop g r.homes 0 r.actions []

/-- The Motion actions of a drone in the order in which the walk meets them. -/
def motionActions (acts : List Action) : List MotionAction :=
  (sortActions acts).filterMap Action.asMotion

/-- An error has the text `s`. -/
def hasText (s : String) (e : FeasibilityError) : Bool := decide (e.text = s)

/-- The three errors that one run of the loop body can push. -/
def pushed (line : Int) (vf gf af sv gv av : Bool) : List FeasibilityError :=
  (if !vf && sv then [⟨line, "Going too fast!"⟩] else []) ++
    (if !gf && gv then [⟨line, "Accelerating down too fast!"⟩] else []) ++
    (if !af && av then [⟨line, "Accelerating too fast!"⟩] else [])

/-- The errors that `check(Trajectory::Ptr, int)` pushes when the error list
is empty before the call. -/
def trajErrors (g : ℚ) (traj : Trajectory) (line : Int) : List FeasibilityError :=
  ((FeasibilityChecker.mk []).checkTraj g traj line).2.errors

/-- The time-discontinuity error of the Motion action `ma` of drone `j` met
at running time `T`: none when the start time is within tolerance of `T`. -/
def timeErrors (j : Nat) (T : ℚ) (ma : MotionAction) : List FeasibilityError :=
  if floatComp ma.startTime T then [] else [⟨ma.line, timeText j ma.startTime T⟩]

/-- The spatial-discontinuity error of the Motion action `ma` of drone `j`
met in running state `S`. -/
def spatialErrors (j : Nat) (S : TrajectoryState) (ma : MotionAction) :
    List FeasibilityError :=
  if pointComp (ma.path.evaluate ma.startTime).position S.position then []
  else [⟨ma.line,
    spatialText j S.position (ma.path.evaluate ma.startTime).position ma.startTime⟩]

/-- The velocity/acceleration error of the Motion action `ma` met in running
state `S`: one error when the velocity or the acceleration differs. -/
def velAccErrors (S : TrajectoryState) (ma : MotionAction) : List FeasibilityError :=
  if pointComp (ma.path.evaluate ma.startTime).velocity S.velocity ∧
      pointComp (ma.path.evaluate ma.startTime).acceleration S.acceleration then []
  else [⟨ma.line, velAccText⟩]

/-- Everything the walk pushes for the Motion action `ma` met at running time
`T` in running state `S`. -/
def motionErrors (g : ℚ) (j : Nat) (T : ℚ) (S : TrajectoryState) (ma : MotionAction) :
    List FeasibilityError :=
  timeErrors j T ma ++ spatialErrors j S ma ++ velAccErrors S ma ++
    trajErrors g ma.path ma.line

/-- Everything the walk pushes for the Motion actions `ms`, entered at running
time `T` in running state `S`. -/
def walkSpec (g : ℚ) (j : Nat) : ℚ → TrajectoryState → List MotionAction →
    List FeasibilityError
  | _, _, [] => []
  | T, S, m :: ms =>
    motionErrors g j T S m ++ walkSpec g j m.endTime (m.path.evaluate m.endTime) ms

/-- A rigid body is delivered: its identifier is registered and the lowest
bit of its `params` is set. -/
def isDelivered {V : Type} (inst : Mocap V) (rb : sRigidBodyData) : Bool :=
  (inst.tracked rb.ID).isSome && decide (rb.params % 2 = 1)

/-- The routine without its Light actions. -/
def removeLights (r : Routine) : Routine :=
  ⟨r.actions.map (fun acts => acts.filter (fun a => !a.IsLightAction)), r.homes⟩

/-- The number of runs of the body of the sampling loop of a trajectory. -/
def sampleCount (traj : Trajectory) : Nat :=
  ⌈(traj.endTime - traj.startTime) * 100⌉.toNat

/-- The errors recorded during the walk over all drones, with the
implementation `S` of `std::sort`. -/
def walkErrorsWith (S : StdSort) (g : ℚ) (r : Routine) : List FeasibilityError :=
  droneLoopWith S g r.homes 0 r.actions []

/-- The Motion actions of a drone in the order in which the walk meets them,
with the implementation `S` of `std::sort`. -/
def motionActionsWith (S : StdSort) (acts : List Action) : List MotionAction :=
  (S.sortActions acts).filterMap Action.asMotion

/-! ## Example inputs -/

/-- A path on `[t1, t2]` that passes through `p` at time 0 with the constant
velocity `v`; with `v` zero it hovers at `p`. -/
def linePath (p v : Vector3d) (t1 t2 : ℚ) : Trajectory :=
  ⟨t1, t2, fun t => ⟨⟨p.x + v.x * t, p.y + v.y * t, p.z + v.z * t⟩, v, Vector3d.zero⟩⟩

/-- A routine of one drone with home at the origin and a single hovering
Motion action on source line 5 that starts at time 1 instead of 0. -/
def lateRoutine : Routine :=
  ⟨[[Action.motion ⟨1, 2, 5, linePath ⟨0, 0, 0⟩ ⟨0, 0, 0⟩ 1 2⟩]], [⟨0, 0, 0⟩]⟩

/-- Action A of the continuous routine: from the home, drifting along x
until time 2. -/
def actionA : MotionAction := ⟨0, 2, 10, linePath ⟨0, 0, 0⟩ ⟨1 / 20, 0, 0⟩ 0 2⟩

/-- Action B of the continuous routine: starts at time 2 in the state in
which action A ends. -/
def actionB : MotionAction := ⟨2, 4, 11, linePath ⟨0, 0, 0⟩ ⟨1 / 20, 0, 0⟩ 2 4⟩

/-- A path that hovers at `(0, 0, 1)` from time `1e16` to time `1e16 + 2`;
both times are doubles. -/
def farPath : Trajectory :=
  linePath ⟨0, 0, 1⟩ ⟨0, 0, 0⟩ 10000000000000000 10000000000000002

/-- The first of two Motion actions with the same start time: it hovers at the
home on `[0, 1]`, source line 1. -/
def tiedM1 : MotionAction := ⟨0, 1, 1, linePath ⟨0, 0, 0⟩ ⟨0, 0, 0⟩ 0 1⟩

/-- The second of two Motion actions with the same start time: it hovers at
the home on `[0, 1]`, source line 2. -/
def tiedM2 : MotionAction := ⟨0, 1, 2, linePath ⟨0, 0, 0⟩ ⟨0, 0, 0⟩ 0 1⟩

/-- A routine of one drone with 15 Light actions and the two Motion actions
`tiedM1`, `tiedM2`, all with the start time 0. -/
def tiedRoutine : Routine :=
  ⟨[List.replicate 15 (Action.light 0 1 3) ++ [Action.motion tiedM1, Action.motion tiedM2]],
    [⟨0, 0, 0⟩]⟩

/-- A routine of one drone with a Light action and the Motion actions A and B;
the Light action starts at the start time of A. -/
def lightRoutine : Routine :=
  ⟨[[Action.light 0 1 3, Action.motion actionA, Action.motion actionB]], [⟨0, 0, 0⟩]⟩

/-! ## Theorems -/

/-- The squared comparison `normGt` is the comparison of the Euclidean norm. -/
theorem normGt_iff_sqrt (a : Vector3d) (c : ℚ) :
    a.normGt c = true ↔ (c : ℝ) < Real.sqrt ((a.squaredNorm : ℚ) : ℝ) := by
  simp only [Vector3d.normGt, decide_eq_true_eq]
  constructor
  · rintro (hc | h)
    · have hc' : (c : ℝ) < 0 := by exact_mod_cast hc
      exact lt_of_lt_of_le hc' (Real.sqrt_nonneg _)
    · by_cases hc : c < 0
      · have hc' : (c : ℝ) < 0 := by exact_mod_cast hc
        exact lt_of_lt_of_le hc' (Real.sqrt_nonneg _)
      · have hc' : (0 : ℝ) ≤ c := by exact_mod_cast (not_lt.mp hc)
        rw [Real.lt_sqrt hc']
        have : ((c * c : ℚ) : ℝ) < ((a.squaredNorm : ℚ) : ℝ) := by exact_mod_cast h
        simpa [pow_two] using this
  · intro h
    by_cases hc : c < 0
    · exact Or.inl hc
    · right
      have hc' : (0 : ℝ) ≤ c := by exact_mod_cast (not_lt.mp hc)
      rw [Real.lt_sqrt hc'] at h
      have h2 : ((c * c : ℚ) : ℝ) < ((a.squaredNorm : ℚ) : ℝ) := by
        simpa [pow_two] using h
      exact_mod_cast h2

/-! ### The sampling loop -/

/-- The sampling loop is the fold of its body over the sampled times. -/
theorem sampleLoop_eq_foldl (g : ℚ) (traj : Trajectory) (line : Int) :
    ∀ (n : Nat) (t : ℚ) (st : SampleState), ⌈(traj.endTime - t) * 100⌉.toNat ≤ n →
      sampleLoop g traj line t st =
        (sampleTimesFrom traj.endTime t).foldl (fun s u => sampleBody g traj line u s) st := by
  intro n
  induction n with
  | zero =>
    intro t st hn
    have hle : ¬ t < traj.endTime := by
      intro h
      have hp : 0 < ⌈(traj.endTime - t) * 100⌉ := Int.ceil_pos.2 (by linarith)
      omega
    rw [sampleLoop, sampleTimesFrom, if_neg hle, if_neg hle]
    rfl
  | succ n ih =>
    intro t st hn
    rw [sampleLoop, sampleTimesFrom]
    by_cases h : t < traj.endTime
    · rw [if_pos h, if_pos h, List.foldl_cons]
      apply ih
      have e : (traj.endTime - (t + 0.01)) * 100 = (traj.endTime - t) * 100 - 1 := by
        norm_num
        ring
      rw [e, Int.ceil_sub_one]
      omega
    · rw [if_neg h, if_neg h]
      rfl

/-- What one run of the loop body does to the flags and to the error list. -/
theorem sampleBody_eq (g : ℚ) (traj : Trajectory) (line : Int) (t : ℚ) (st : SampleState) :
    sampleBody g traj line t st =
      ⟨st.gravityFlag || gravityViolation g traj t,
       st.velocityFlag || speedViolation traj t,
       st.accelFlag || accelViolation g traj t,
       st.errors ++
        ((if !st.velocityFlag && speedViolation traj t then [⟨line, "Going too fast!"⟩] else []) ++
         (if !st.gravityFlag && gravityViolation g traj t then
            [⟨line, "Accelerating down too fast!"⟩] else []) ++
         (if !st.accelFlag && accelViolation g traj t then
            [⟨line, "Accelerating too fast!"⟩] else []))⟩ := by
  obtain ⟨gf, vf, af, errs⟩ := st
  rcases h1 : speedViolation traj t <;> rcases h2 : gravityViolation g traj t <;>
    rcases h3 : accelViolation g traj t <;>
    simp only [speedViolation, gravityViolation, accelViolation] at h1 h2 h3 <;>
    cases gf <;> cases vf <;> cases af <;>
    simp [sampleBody, h1, h2, h3]

/-- The error list only grows by what the loop body pushes: the flags after a
run of bodies do not depend on the list, and the list is the old one followed
by what the same run pushes on an empty list. -/
theorem foldl_sampleBody_errors (g : ℚ) (traj : Trajectory) (line : Int) :
    ∀ (ts : List ℚ) (gf vf af : Bool) (E : List FeasibilityError),
      ts.foldl (fun s u => sampleBody g traj line u s) ⟨gf, vf, af, E⟩ =
        ⟨gf || ts.any (gravityViolation g traj),
         vf || ts.any (speedViolation traj),
         af || ts.any (accelViolation g traj),
         E ++ (ts.foldl (fun s u => sampleBody g traj line u s) ⟨gf, vf, af, []⟩).errors⟩ := by
  intro ts
  induction ts with
  | nil => intro gf vf af E; simp
  | cons t ts ih =>
    intro gf vf af E
    rw [List.foldl_cons, List.foldl_cons, sampleBody_eq, sampleBody_eq, ih]
    conv_rhs => rw [ih]
    simp [Bool.or_assoc, List.append_assoc]

/-- Filtering a list of at most one element. -/
theorem filter_ite_singleton {α : Type} (p : α → Bool) (c : Bool) (e : α) :
    List.filter p (if c then [e] else []) = if c && p e then [e] else [] := by
  cases c <;> cases h : p e <;> simp [h]

/-- The induction step of `foldl_sampleBody_filter`, on booleans. -/
theorem pushed_step (line : Int) (gf vf af sv gv av sa ga aa : Bool)
    (R : List FeasibilityError)
    (h1 : R.filter (hasText "Going too fast!") =
      (if !(vf || sv) && sa then [⟨line, "Going too fast!"⟩] else []))
    (h2 : R.filter (hasText "Accelerating down too fast!") =
      (if !(gf || gv) && ga then [⟨line, "Accelerating down too fast!"⟩] else []))
    (h3 : R.filter (hasText "Accelerating too fast!") =
      (if !(af || av) && aa then [⟨line, "Accelerating too fast!"⟩] else []))
    (h4 : ∀ e ∈ R, e.line = line ∧
      (e.text = "Going too fast!" ∨ e.text = "Accelerating down too fast!" ∨
        e.text = "Accelerating too fast!"))
    (h5 : R.length ≤ (!(gf || gv)).toNat + (!(vf || sv)).toNat + (!(af || av)).toNat) :
    (pushed line vf gf af sv gv av ++ R).filter (hasText "Going too fast!") =
        (if !vf && (sv || sa) then [⟨line, "Going too fast!"⟩] else []) ∧
      (pushed line vf gf af sv gv av ++ R).filter (hasText "Accelerating down too fast!") =
        (if !gf && (gv || ga) then [⟨line, "Accelerating down too fast!"⟩] else []) ∧
      (pushed line vf gf af sv gv av ++ R).filter (hasText "Accelerating too fast!") =
        (if !af && (av || aa) then [⟨line, "Accelerating too fast!"⟩] else []) ∧
      (∀ e ∈ pushed line vf gf af sv gv av ++ R, e.line = line ∧
        (e.text = "Going too fast!" ∨ e.text = "Accelerating down too fast!" ∨
          e.text = "Accelerating too fast!")) ∧
      (pushed line vf gf af sv gv av ++ R).length ≤ (!gf).toNat + (!vf).toNat + (!af).toNat := by
  simp only [pushed, List.filter_append, h1, h2, h3, filter_ite_singleton, List.length_append]
  refine ⟨?_, ?_, ?_, ?_, ?_⟩
  · cases vf <;> cases sv <;> cases sa <;> simp [hasText]
  · cases gf <;> cases gv <;> cases ga <;> simp [hasText]
  · cases af <;> cases av <;> cases aa <;> simp [hasText]
  · intro e he
    rcases List.mem_append.1 he with he | he
    · simp only [List.mem_append] at he
      rcases he with (he | he) | he <;> split at he <;> simp at he <;> simp [he]
    · exact h4 e he
  · revert h5
    cases gf <;> cases vf <;> cases af <;> cases sv <;> cases gv <;> cases av <;>
      simp <;> omega

/-- What a run of loop bodies pushes on an empty list, condition by condition. -/
theorem foldl_sampleBody_filter (g : ℚ) (traj : Trajectory) (line : Int) :
    ∀ (ts : List ℚ) (gf vf af : Bool),
      let errs := (ts.foldl (fun s u => sampleBody g traj line u s) ⟨gf, vf, af, []⟩).errors
      errs.filter (hasText "Going too fast!") =
          (if !vf && ts.any (speedViolation traj) then [⟨line, "Going too fast!"⟩] else []) ∧
        errs.filter (hasText "Accelerating down too fast!") =
          (if !gf && ts.any (gravityViolation g traj) then
            [⟨line, "Accelerating down too fast!"⟩] else []) ∧
        errs.filter (hasText "Accelerating too fast!") =
          (if !af && ts.any (accelViolation g traj) then
            [⟨line, "Accelerating too fast!"⟩] else []) ∧
        (∀ e ∈ errs, e.line = line ∧
          (e.text = "Going too fast!" ∨ e.text = "Accelerating down too fast!" ∨
            e.text = "Accelerating too fast!")) ∧
        errs.length ≤ (!gf).toNat + (!vf).toNat + (!af).toNat := by
  intro ts
  induction ts with
  | nil => intro gf vf af; simp
  | cons t ts ih =>
    intro gf vf af
    simp only [List.foldl_cons, List.any_cons]
    rw [sampleBody_eq, foldl_sampleBody_errors]
    simp only [List.nil_append]
    obtain ⟨h1, h2, h3, h4, h5⟩ := ih (gf || gravityViolation g traj t)
      (vf || speedViolation traj t) (af || accelViolation g traj t)
    exact pushed_step line gf vf af _ _ _ _ _ _ _ h1 h2 h3 h4 h5

/-- The error list after `check(Trajectory, line)` is the list before the call
followed by `trajErrors`. -/
theorem checkTraj_errors (c : FeasibilityChecker) (g : ℚ) (traj : Trajectory) (line : Int) :
    (c.checkTraj g traj line).2.errors = c.errors ++ trajErrors g traj line := by
  simp only [FeasibilityChecker.checkTraj, trajErrors]
  rw [sampleLoop_eq_foldl g traj line _ _ _ le_rfl, sampleLoop_eq_foldl g traj line _ _ _ le_rfl,
    foldl_sampleBody_errors]

/-- The appended errors are `trajErrors`, whatever the list was before. -/
theorem trajAppended_eq (c : FeasibilityChecker) (g : ℚ) (traj : Trajectory) (line : Int) :
    trajAppended c g traj line = trajErrors g traj line := by
  rw [trajAppended, checkTraj_errors, List.drop_left]

/-- The errors of a trajectory check, condition by condition. -/
theorem trajErrors_spec (g : ℚ) (traj : Trajectory) (line : Int) :
    (trajErrors g traj line).filter (hasText "Going too fast!") =
        (if (sampleTimes traj).any (speedViolation traj) then
          [⟨line, "Going too fast!"⟩] else []) ∧
      (trajErrors g traj line).filter (hasText "Accelerating down too fast!") =
        (if (sampleTimes traj).any (gravityViolation g traj) then
          [⟨line, "Accelerating down too fast!"⟩] else []) ∧
      (trajErrors g traj line).filter (hasText "Accelerating too fast!") =
        (if (sampleTimes traj).any (accelViolation g traj) then
          [⟨line, "Accelerating too fast!"⟩] else []) ∧
      (∀ e ∈ trajErrors g traj line, e.line = line ∧
        (e.text = "Going too fast!" ∨ e.text = "Accelerating down too fast!" ∨
          e.text = "Accelerating too fast!")) ∧
      (trajErrors g traj line).length ≤ 3 := by
  have h := foldl_sampleBody_filter g traj line (sampleTimes traj) false false false
  simp only [FeasibilityChecker.checkTraj, trajErrors]
  rw [sampleLoop_eq_foldl g traj line _ _ _ le_rfl]
  simpa [sampleTimes] using h

/-- A light action leaves the walk state as it is. -/
theorem actionBody_light (g : ℚ) (j : Nat) (st : WalkState) (s e : ℚ) (l : Int) :
    actionBody g j st (Action.light s e l) = st := rfl

/-- What the walk does for a Motion action. -/
theorem actionBody_motion (g : ℚ) (j : Nat) (st : WalkState) (ma : MotionAction) :
    actionBody g j st (Action.motion ma) =
      ⟨ma.path.evaluate ma.endTime, ma.endTime,
        st.errors ++ motionErrors g j st.startTime st.startPoint ma⟩ := by
  simp only [actionBody, checkTraj_errors, motionErrors, timeErrors, spatialErrors,
    velAccErrors]
  cases floatComp ma.startTime st.startTime <;>
    cases pointComp (ma.path.evaluate ma.startTime).position st.startPoint.position <;>
    cases pointComp (ma.path.evaluate ma.startTime).velocity st.startPoint.velocity <;>
    cases pointComp (ma.path.evaluate ma.startTime).acceleration st.startPoint.acceleration <;>
    simp

/-- The walk over a list of actions: the running time and state it ends in,
and the errors it pushes. -/
theorem foldl_actionBody (g : ℚ) (j : Nat) :
    ∀ (L : List Action) (st : WalkState),
      L.foldl (actionBody g j) st =
        ⟨((L.filterMap Action.asMotion).map (fun m => m.path.evaluate m.endTime)).getLastD
            st.startPoint,
          ((L.filterMap Action.asMotion).map (fun m => m.endTime)).getLastD st.startTime,
          st.errors ++ walkSpec g j st.startTime st.startPoint (L.filterMap Action.asMotion)⟩ := by
  intro L
  induction L with
  | nil => intro st; simp [walkSpec]
  | cons a L ih =>
    intro st
    cases a with
    | light s e l =>
      rw [List.foldl_cons, actionBody_light, ih]
      simp only [List.filterMap_cons, Action.asMotion]
    | motion ma =>
      rw [List.foldl_cons, actionBody_motion, ih]
      simp only [List.filterMap_cons, Action.asMotion, List.map_cons, List.getLastD_cons,
        walkSpec, List.append_assoc]

/-- The errors after the walk over one drone. -/
theorem droneBody_eq (g : ℚ) (homes : List Point) (j : Nat) (acts : List Action)
    (E : List FeasibilityError) :
    droneBody g homes j acts E =
      E ++ walkSpec g j 0 ⟨homes.getD j Vector3d.zero, Vector3d.zero, Vector3d.zero⟩
        (motionActions acts) := by
  simp [droneBody, foldl_actionBody, droneInit, motionActions]

/-- The errors after the loop over the drones. -/
theorem droneLoop_eq (g : ℚ) (homes : List Point) :
    ∀ (rest : List (List Action)) (j : Nat) (E : List FeasibilityError),
      droneLoop g homes j rest E =
        E ++ (rest.enumFrom j).flatMap (fun p =>
          walkSpec g p.1 0 ⟨homes.getD p.1 Vector3d.zero, Vector3d.zero, Vector3d.zero⟩
            (motionActions p.2)) := by
  intro rest
  induction rest with
  | nil => intro j E; simp [droneLoop]
  | cons acts rest ih =>
    intro j E
    rw [droneLoop, droneBody_eq, ih]
    simp [List.enumFrom_cons, List.flatMap_cons, List.append_assoc]

/-- The loop over the drones appends the walk errors to the list. -/
theorem droneLoop_append (g : ℚ) (r : Routine) (E : List FeasibilityError) :
    droneLoop g r.homes 0 r.actions E = E ++ walkErrors g r := by
  rw [droneLoop_eq, walkErrors, droneLoop_eq]
  simp

/-- The walk errors, drone by drone. -/
theorem walkErrors_eq (g : ℚ) (r : Routine) :
    walkErrors g r = r.actions.enum.flatMap (fun p =>
      walkSpec g p.1 0 ⟨r.homes.getD p.1 Vector3d.zero, Vector3d.zero, Vector3d.zero⟩
        (motionActions p.2)) := by
  rw [walkErrors, droneLoop_eq]
  simp [List.enum]

/-- The error list after `check(Routine&)`. -/
theorem check_errors (c : FeasibilityChecker) (g : ℚ) (r : Routine) :
    (c.check g r).checker.errors = sortErrors (c.errors ++ walkErrors g r) := by
  simp [FeasibilityChecker.check, droneLoop_append]

/-- The boolean returned by `check(Routine&)`. -/
theorem check_ret (c : FeasibilityChecker) (g : ℚ) (r : Routine) :
    (c.check g r).ret = decide ((c.check g r).checker.errors = []) := by
  simp [FeasibilityChecker.check, List.length_eq_zero]

/-- Sorting keeps the length. -/
theorem sortErrors_length (E : List FeasibilityError) : (sortErrors E).length = E.length :=
  List.length_insertionSort _ _

/-- Sorting permutes. -/
theorem sortErrors_perm (E : List FeasibilityError) : (sortErrors E).Perm E :=
  List.perm_insertionSort _ _

/-- A sorted list is empty exactly when the list is. -/
theorem sortErrors_eq_nil (E : List FeasibilityError) : sortErrors E = [] ↔ E = [] := by
  rw [← List.length_eq_zero, sortErrors_length, List.length_eq_zero]

/-- A trajectory check pushes nothing exactly when no sample violates a limit. -/
theorem trajErrors_eq_nil_iff (g : ℚ) (traj : Trajectory) (line : Int) :
    trajErrors g traj line = [] ↔
      ∀ t ∈ sampleTimes traj, speedViolation traj t = false ∧
        gravityViolation g traj t = false ∧ accelViolation g traj t = false := by
  obtain ⟨h1, h2, h3, h4, _⟩ := trajErrors_spec g traj line
  constructor
  · intro h t ht
    rw [h] at h1 h2 h3
    refine ⟨?_, ?_, ?_⟩
    · by_contra hv
      have : (sampleTimes traj).any (speedViolation traj) = true :=
        List.any_eq_true.2 ⟨t, ht, by simpa using hv⟩
      simp [this] at h1
    · by_contra hv
      have : (sampleTimes traj).any (gravityViolation g traj) = true :=
        List.any_eq_true.2 ⟨t, ht, by simpa using hv⟩
      simp [this] at h2
    · by_contra hv
      have : (sampleTimes traj).any (accelViolation g traj) = true :=
        List.any_eq_true.2 ⟨t, ht, by simpa using hv⟩
      simp [this] at h3
  · intro h
    have a1 : (sampleTimes traj).any (speedViolation traj) = false := by
      rw [List.any_eq_false]
      intro t ht
      simp [(h t ht).1]
    have a2 : (sampleTimes traj).any (gravityViolation g traj) = false := by
      rw [List.any_eq_false]
      intro t ht
      simp [(h t ht).2.1]
    have a3 : (sampleTimes traj).any (accelViolation g traj) = false := by
      rw [List.any_eq_false]
      intro t ht
      simp [(h t ht).2.2]
    rw [a1] at h1
    rw [a2] at h2
    rw [a3] at h3
    apply List.eq_nil_iff_forall_not_mem.2
    intro e he
    obtain ⟨_, ht⟩ := h4 e he
    rcases ht with ht | ht | ht
    · have : e ∈ (trajErrors g traj line).filter (hasText "Going too fast!") :=
        List.mem_filter.2 ⟨he, by simp [hasText, ht]⟩
      rw [h1] at this
      simp at this
    · have : e ∈ (trajErrors g traj line).filter (hasText "Accelerating down too fast!") :=
        List.mem_filter.2 ⟨he, by simp [hasText, ht]⟩
      rw [h2] at this
      simp at this
    · have : e ∈ (trajErrors g traj line).filter (hasText "Accelerating too fast!") :=
        List.mem_filter.2 ⟨he, by simp [hasText, ht]⟩
      rw [h3] at this
      simp at this

/-- A path of `linePath` with a speed of at most 2.5 violates no limit when
the gravitational constant is not negative. -/
theorem linePath_no_violation (g : ℚ) (hg : 0 ≤ g) (p v : Vector3d) (t1 t2 t : ℚ)
    (hv : v.squaredNorm ≤ 2.5 * 2.5) :
    speedViolation (linePath p v t1 t2) t = false ∧
      gravityViolation g (linePath p v t1 t2) t = false ∧
      accelViolation g (linePath p v t1 t2) t = false := by
  refine ⟨?_, ?_, ?_⟩
  · simp only [speedViolation, linePath, Vector3d.normGt, decide_eq_false_iff_not, not_or,
      not_lt]
    exact ⟨by norm_num, hv⟩
  · simp only [gravityViolation, linePath, decide_eq_false_iff_not, not_lt]
    show (0 : ℚ) ≤ 0 + g
    linarith
  · simp only [accelViolation, linePath, Vector3d.normGt, decide_eq_false_iff_not, not_or,
      not_lt]
    refine ⟨by linarith, ?_⟩
    show (0 + 0 : ℚ) * (0 + 0) + (0 + 0) * (0 + 0) + (0 + g) * (0 + g) ≤ 2 * g * 0.8 * (2 * g * 0.8)
    norm_num
    nlinarith [mul_nonneg hg hg]

/-- The walk errors of the routine `lateRoutine`. -/
theorem walkErrors_lateRoutine :
    walkErrors 9.8 lateRoutine = [⟨5, timeText 0 1 0⟩] := by
  have h : trajErrors 9.8 (linePath ⟨0, 0, 0⟩ ⟨0, 0, 0⟩ 1 2) 5 = [] :=
    (trajErrors_eq_nil_iff _ _ _).2 fun t _ =>
      linePath_no_violation 9.8 (by norm_num) _ _ _ _ t (by norm_num [Vector3d.squaredNorm])
  have h1 : floatComp 1 0 = false := by
    simp only [floatComp, decide_eq_false_iff_not]
    norm_num
  have h2 : pointComp (⟨0, 0, 0⟩ : Vector3d) ⟨0, 0, 0⟩ = true := by
    simp only [pointComp, Vector3d.normLt, decide_eq_true_eq]
    show (0 : ℚ) < 0.1 ∧ (0 - 0 : ℚ) * (0 - 0) + (0 - 0) * (0 - 0) + (0 - 0) * (0 - 0) < 0.1 * 0.1
    norm_num
  rw [walkErrors_eq]
  simp only [linePath, Vector3d.zero, zero_mul, add_zero] at h
  simp [lateRoutine, List.enum, List.enumFrom, motionActions, sortActions, Action.asMotion,
    walkSpec, motionErrors, timeErrors, spatialErrors, velAccErrors, h, h1, linePath,
    Vector3d.zero, h2]

/-- Two Motion actions given in the order of their start times are walked in
that order. -/
theorem motionActions_pair (A B : MotionAction) (h : A.startTime ≤ B.startTime) :
    motionActions [Action.motion A, Action.motion B] = [A, B] := by
  simp [motionActions, sortActions, List.insertionSort, List.orderedInsert, Action.GetStartTime,
    h, Action.asMotion]

/-- The identity matrix leaves a vector as it is. -/
theorem identity_mulVec (v : Vector3d) : Matrix3d.identity.mulVec v = v := by
  cases v
  simp [Matrix3d.identity, Matrix3d.mulVec]

/-- Adding the zero vector leaves a vector as it is. -/
theorem add_zero_vec (v : Vector3d) : v + Vector3d.zero = v := by
  cases v
  show Vector3d.add _ _ = _
  simp [Vector3d.add, Vector3d.zero]

/-- The product of matrices acts as the composition. -/
theorem mul_mulVec (a b : Matrix3d) (v : Vector3d) :
    (a.mul b).mulVec v = a.mulVec (b.mulVec v) := by
  simp only [Matrix3d.mul, Matrix3d.mulVec, Vector3d.mk.injEq]
  refine ⟨?_, ?_, ?_⟩ <;> ring

/-- The action of a matrix is additive. -/
theorem mulVec_add (a : Matrix3d) (v w : Vector3d) :
    a.mulVec (v + w) = a.mulVec v + a.mulVec w := by
  show a.mulVec (Vector3d.add v w) = Vector3d.add (a.mulVec v) (a.mulVec w)
  simp only [Matrix3d.mulVec, Vector3d.add, Vector3d.mk.injEq]
  refine ⟨?_, ?_, ?_⟩ <;> ring

/-- The sum of vectors is associative. -/
theorem add_assoc_vec (u v w : Vector3d) : u + v + w = u + (v + w) := by
  show Vector3d.add (Vector3d.add u v) w = Vector3d.add u (Vector3d.add v w)
  simp only [Vector3d.add, Vector3d.mk.injEq]
  refine ⟨?_, ?_, ?_⟩ <;> ring

/-- The bit difference of 1 and `m` is the negated lowest bit of `m`. -/
theorem ldiff_one (m : Nat) : Nat.ldiff 1 m = if m % 2 = 0 then 1 else 0 := by
  apply Nat.eq_of_testBit_eq
  intro i
  rw [Nat.testBit_ldiff]
  cases i with
  | zero =>
    rcases Nat.mod_two_eq_zero_or_one m with h | h <;> simp [h]
  | succ i =>
    have h1 : Nat.testBit 1 (i + 1) = false := by
      cases hb : Nat.testBit 1 (i + 1) with
      | false => rfl
      | true => exact absurd (Nat.testBit_one_eq_true_iff_self_eq_zero.1 hb) (Nat.succ_ne_zero i)
    split_ifs
    · rw [h1, Bool.false_and]
    · rw [h1, Bool.false_and, Nat.zero_testBit]

/-- The test `params & 0x01` is the test of the lowest bit. -/
theorem land_one_ne_zero (p : Int) : Int.land p 1 ≠ 0 ↔ p % 2 = 1 := by
  cases p with
  | ofNat n =>
    show ((n &&& 1 : Nat) : Int) ≠ 0 ↔ (n : Int) % 2 = 1
    rw [Nat.and_one_is_mod]
    omega
  | negSucc m =>
    show ((Nat.ldiff 1 m : Nat) : Int) ≠ 0 ↔ Int.negSucc m % 2 = 1
    rw [ldiff_one, Int.negSucc_eq]
    split_ifs <;> omega

/-- The calls made by the loop over the rigid bodies. -/
theorem mocapLoop_eq {V : Type} (inst : Mocap V) (t : Nat) :
    ∀ bodies : List sRigidBodyData,
      mocapLoop inst t bodies =
        (bodies.filter (isDelivered inst)).filterMap (fun rb =>
          (inst.tracked rb.ID).map (fun v =>
            ⟨v, ⟨-rb.x, rb.z, rb.y⟩, ⟨rb.qw, -rb.qx, rb.qz, rb.qy⟩, t⟩)) := by
  intro bodies
  induction bodies with
  | nil => rfl
  | cons rb rest ih =>
    rw [mocapLoop]
    cases h : inst.tracked rb.ID with
    | none => simp [ih, isDelivered, h, List.filter_cons]
    | some v =>
      by_cases hb : rb.params % 2 = 1
      · have hl : Int.land rb.params 1 ≠ 0 := (land_one_ne_zero _).2 hb
        simp [ih, isDelivered, h, List.filter_cons, hb, hl]
      · have hl : Int.land rb.params 1 = 0 := by
          by_contra hne
          exact hb ((land_one_ne_zero _).1 hne)
        simp [ih, isDelivered, h, List.filter_cons, hb, hl]

/-- A sorted error list is sorted by source line. -/
theorem sortErrors_sorted (E : List FeasibilityError) :
    List.Sorted (fun a b : FeasibilityError => a.line ≤ b.line) (sortErrors E) :=
  List.sorted_insertionSort FeasibilityError.le E

/-- The actions of a drone with pairwise distinct start times are sorted to
the same list, in whatever order they are supplied. -/
theorem sortActions_perm_eq (acts acts' : List Action) (hp : acts.Perm acts')
    (hd : (acts.map Action.GetStartTime).Nodup) : sortActions acts = sortActions acts' := by
  haveI : IsTotal Action (fun lhs rhs => lhs.GetStartTime ≤ rhs.GetStartTime) :=
    ⟨fun a b => le_total _ _⟩
  haveI : IsTrans Action (fun lhs rhs => lhs.GetStartTime ≤ rhs.GetStartTime) :=
    ⟨fun _ _ _ h1 h2 => le_trans h1 h2⟩
  have p1 : (sortActions acts).Perm acts := List.perm_insertionSort _ _
  have p2 : (sortActions acts').Perm acts' := List.perm_insertionSort _ _
  refine List.Perm.eq_of_sorted ?_ (List.sorted_insertionSort _ acts)
    (List.sorted_insertionSort _ acts') (p1.trans (hp.trans p2.symm))
  intro a b ha hb hab hba
  have ha' : a ∈ acts := p1.subset ha
  have hb' : b ∈ acts := hp.symm.subset (p2.subset hb)
  exact List.inj_on_of_nodup_map hd ha' hb' (le_antisymm hab hba)

/-- The loop over the drones depends on the actions of each drone through
their Motion actions in the order of the walk only. -/
theorem droneLoop_congr (g : ℚ) (homes : List Point) :
    ∀ (l l' : List (List Action)),
      List.Forall₂ (fun a b => motionActions a = motionActions b) l l' →
      ∀ (j : Nat) (E : List FeasibilityError), droneLoop g homes j l E = droneLoop g homes j l' E := by
  intro l l' h
  induction h with
  | nil => intro j E; rfl
  | cons hab _ ih =>
    intro j E
    rw [droneLoop, droneLoop, droneBody_eq, droneBody_eq, hab, ih]

/-- The result of `check(Routine&)` depends on the actions of each drone
through their Motion actions in the order of the walk only. -/
theorem check_congr (c : FeasibilityChecker) (g : ℚ) (r r' : Routine)
    (hh : r.homes = r'.homes)
    (h : List.Forall₂ (fun a b => motionActions a = motionActions b) r.actions r'.actions) :
    c.check g r = c.check g r' := by
  simp only [FeasibilityChecker.check, hh, droneLoop_congr g r'.homes _ _ h]

/-- The sampled times of a loop entered at `t`, in closed form. -/
theorem sampleTimesFrom_eq (tEnd : ℚ) :
    ∀ (n : Nat) (t : ℚ), ⌈(tEnd - t) * 100⌉.toNat = n →
      sampleTimesFrom tEnd t = (List.range n).map (fun k : Nat => t + 0.01 * k) := by
  intro n
  induction n with
  | zero =>
    intro t hn
    have hle : ¬ t < tEnd := by
      intro h
      have hp : 0 < ⌈(tEnd - t) * 100⌉ := Int.ceil_pos.2 (by linarith)
      omega
    rw [sampleTimesFrom, if_neg hle]
    rfl
  | succ n ih =>
    intro t hn
    have hlt : t < tEnd := by
      by_contra h
      have hp : ⌈(tEnd - t) * 100⌉ ≤ 0 := Int.ceil_le.2 (by push_cast; nlinarith [not_lt.1 h])
      omega
    have e : (tEnd - (t + 0.01)) * 100 = (tEnd - t) * 100 - 1 := by
      norm_num
      ring
    have hn' : ⌈(tEnd - (t + 0.01)) * 100⌉.toNat = n := by
      rw [e, Int.ceil_sub_one]
      omega
    rw [sampleTimesFrom, if_pos hlt, ih _ hn', List.range_succ_eq_map, List.map_cons,
      List.map_map]
    congr 1
    · norm_num
    · apply List.map_congr_left
      intro k _
      simp only [Function.comp, Nat.succ_eq_add_one, Nat.cast_add, Nat.cast_one]
      ring

/-- The sampled times of a trajectory, in closed form. -/
theorem sampleTimes_eq (traj : Trajectory) :
    sampleTimes traj =
      (List.range (sampleCount traj)).map (fun k : Nat => traj.startTime + 0.01 * k) :=
  sampleTimesFrom_eq _ _ _ rfl

/-- A time is sampled exactly when it is a step of 0.01 from the start time
and lies before the end time. -/
theorem mem_sampleTimes (traj : Trajectory) (t : ℚ) :
    t ∈ sampleTimes traj ↔ ∃ k : Nat, t = traj.startTime + 0.01 * k ∧ t < traj.endTime := by
  rw [sampleTimes_eq, List.mem_map]
  have key : ∀ k : Nat, k < sampleCount traj ↔ traj.startTime + 0.01 * k < traj.endTime := by
    intro k
    rw [sampleCount, Int.lt_toNat, Int.lt_ceil]
    push_cast
    constructor <;> intro h <;> norm_num at h ⊢ <;> linarith
  constructor
  · rintro ⟨k, hk, rfl⟩
    exact ⟨k, rfl, (key k).1 (List.mem_range.1 hk)⟩
  · rintro ⟨k, rfl, hk⟩
    exact ⟨k, List.mem_range.2 ((key k).2 hk), rfl⟩

/-- The sampled times of a trajectory on `[0, 0.03)`: a concrete run. -/
theorem sampleTimes_example :
    sampleTimes (linePath ⟨0, 0, 0⟩ ⟨9, 0, 0⟩ 0 0.03) = [0, 0.01, 0.02] := by
  rw [sampleTimes_eq]
  have h : sampleCount (linePath ⟨0, 0, 0⟩ ⟨9, 0, 0⟩ 0 0.03) = 3 := by
    simp only [sampleCount, linePath, Trajectory.endTime, Trajectory.startTime]
    norm_num
    rfl
  rw [h]
  simp only [List.range, List.range.loop, List.map, linePath, Trajectory.startTime]
  norm_num

/-- A concrete run of `check(Trajectory, line)`: a path with the speed 9 on
`[0, 0.03)` is sampled three times and gets one error. -/
theorem trajErrors_fast_example :
    trajErrors 9.8 (linePath ⟨0, 0, 0⟩ ⟨9, 0, 0⟩ 0 0.03) 7 = [⟨7, "Going too fast!"⟩] := by
  have hs : ∀ t, speedViolation (linePath ⟨0, 0, 0⟩ ⟨9, 0, 0⟩ 0 0.03) t = true := by
    intro t
    simp only [speedViolation, linePath, Vector3d.normGt, Vector3d.squaredNorm,
      decide_eq_true_eq]
    norm_num
  have hg : ∀ t, gravityViolation 9.8 (linePath ⟨0, 0, 0⟩ ⟨9, 0, 0⟩ 0 0.03) t = false := by
    intro t
    simp only [gravityViolation, linePath, decide_eq_false_iff_not, not_lt]
    show (0 : ℚ) ≤ 0 + 9.8
    norm_num
  have ha : ∀ t, accelViolation 9.8 (linePath ⟨0, 0, 0⟩ ⟨9, 0, 0⟩ 0 0.03) t = false := by
    intro t
    simp only [accelViolation, linePath, Vector3d.normGt, decide_eq_false_iff_not, not_or,
      not_lt]
    refine ⟨by norm_num, ?_⟩
    show (0 + 0 : ℚ) * (0 + 0) + (0 + 0) * (0 + 0) + (0 + 9.8) * (0 + 9.8) ≤
      2 * 9.8 * 0.8 * (2 * 9.8 * 0.8)
    norm_num
  simp only [trajErrors, FeasibilityChecker.checkTraj]
  rw [sampleLoop_eq_foldl _ _ _ _ _ _ le_rfl]
  have ht := sampleTimes_example
  rw [sampleTimes] at ht
  rw [ht]
  simp [sampleBody_eq, hs, hg, ha]

/-- Sampling with an exact loop variable. With `t += 0.01` taken without
rounding, the loop returns after `sampleCount` runs of its body, one for each
sampled time; the sampled times are `startTime + 0.01 * k` for
`k = 0, 1, 2, ...` as long as this is before `endTime`; every sample lies in
`[startTime, endTime)` and `endTime` is not sampled; when
`startTime >= endTime` nothing is sampled and no error is appended. -/
theorem exact_sampling (c : FeasibilityChecker) (g : ℚ) (traj : Trajectory) (line : Int) :
    (c.checkTraj g traj line).2.errors =
        ((sampleTimes traj).foldl (fun s u => sampleBody g traj line u s)
          ⟨false, false, false, c.errors⟩).errors ∧
      (sampleTimes traj).length = sampleCount traj ∧
      sampleTimes traj =
        (List.range (sampleCount traj)).map (fun k : Nat => traj.startTime + 0.01 * k) ∧
      (∀ t : ℚ, t ∈ sampleTimes traj ↔
        ∃ k : Nat, t = traj.startTime + 0.01 * k ∧ t < traj.endTime) ∧
      (∀ t ∈ sampleTimes traj, traj.startTime ≤ t ∧ t < traj.endTime) ∧
      traj.endTime ∉ sampleTimes traj ∧
      (traj.endTime ≤ traj.startTime →
        sampleTimes traj = [] ∧ trajAppended c g traj line = [] ∧
          (c.checkTraj g traj line).2.errors = c.errors) := by
  refine ⟨?_, ?_, sampleTimes_eq traj, mem_sampleTimes traj, ?_, ?_, ?_⟩
  · simp only [FeasibilityChecker.checkTraj]
    rw [sampleLoop_eq_foldl g traj line _ _ _ le_rfl]
    rfl
  · rw [sampleTimes_eq, List.length_map, List.length_range]
  · intro t ht
    obtain ⟨k, hk, hlt⟩ := (mem_sampleTimes traj t).1 ht
    refine ⟨?_, hlt⟩
    rw [hk]
    have : (0 : ℚ) ≤ (k : ℚ) := Nat.cast_nonneg k
    linarith [mul_nonneg (show (0 : ℚ) ≤ 0.01 by norm_num) this]
  · intro h
    obtain ⟨_, _, hlt⟩ := (mem_sampleTimes traj _).1 h
    exact lt_irrefl _ hlt
  · intro h
    have h0 : sampleTimes traj = [] := by
      apply List.eq_nil_iff_forall_not_mem.2
      intro t ht
      obtain ⟨k, hk, hlt⟩ := (mem_sampleTimes traj t).1 ht
      have : (0 : ℚ) ≤ (k : ℚ) := Nat.cast_nonneg k
      rw [hk] at hlt
      linarith [mul_nonneg (show (0 : ℚ) ≤ 0.01 by norm_num) this]
    have h1 : trajErrors g traj line = [] := by
      rw [trajErrors_eq_nil_iff, h0]
      intro t ht
      simp at ht
    exact ⟨h0, by rw [trajAppended_eq, h1], by rw [checkTraj_errors, h1, List.append_nil]⟩

/-- A path that would be too fast, with start time 2 and end time 1: nothing
is sampled and no error is appended. -/
theorem exact_sampling_example :
    (linePath ⟨0, 0, 0⟩ ⟨9, 0, 0⟩ 2 1).endTime ≤ (linePath ⟨0, 0, 0⟩ ⟨9, 0, 0⟩ 2 1).startTime ∧
      sampleTimes (linePath ⟨0, 0, 0⟩ ⟨9, 0, 0⟩ 2 1) = [] ∧
      trajAppended ⟨[]⟩ 9.8 (linePath ⟨0, 0, 0⟩ ⟨9, 0, 0⟩ 2 1) 7 = [] ∧
      ((FeasibilityChecker.mk []).checkTraj 9.8
        (linePath ⟨0, 0, 0⟩ ⟨9, 0, 0⟩ 2 1) 7).2.errors = [] :=
  have h : (linePath ⟨0, 0, 0⟩ ⟨9, 0, 0⟩ 2 1).endTime ≤
      (linePath ⟨0, 0, 0⟩ ⟨9, 0, 0⟩ 2 1).startTime := by
    norm_num [linePath, Trajectory.endTime, Trajectory.startTime]
  ⟨h, (exact_sampling ⟨[]⟩ 9.8 (linePath ⟨0, 0, 0⟩ ⟨9, 0, 0⟩ 2 1) 7).2.2.2.2.2.2 h⟩

/-! ### Implementations of `std::sort` and double arithmetic -/

/-- The binary exponent of a positive rational between two powers of two. -/
theorem log_two_eq (y : ℚ) (e : ℤ) (h1 : (2 : ℚ) ^ e ≤ y) (h2 : y < (2 : ℚ) ^ (e + 1)) :
    Int.log 2 y = e := by
  have hy : 0 < y := lt_of_lt_of_le (by positivity) h1
  have a : e ≤ Int.log 2 y := (Int.zpow_le_iff_le_log (by norm_num) hy).1 (by exact_mod_cast h1)
  have b : Int.log 2 y < e + 1 := (Int.lt_zpow_iff_log_lt (by norm_num) hy).1 (by exact_mod_cast h2)
  omega

/-- Rounding to a double: when `x` has the binary exponent `e` and lies less
than half a unit in the last place from `n` units, the result is `n` units. -/
theorem roundDouble_eq (x : ℚ) (e n : ℤ) (h1 : (2 : ℚ) ^ e ≤ |x|)
    (h2 : |x| < (2 : ℚ) ^ (e + 1)) (hn : |x / (2 : ℚ) ^ (e - 52) - n| < 1 / 2) :
    roundDouble x = n * (2 : ℚ) ^ (e - 52) := by
  have hx : x ≠ 0 := by
    intro h
    rw [h, abs_zero] at h1
    exact absurd h1 (not_le.2 (by positivity))
  have he : Int.log 2 |x| = e := log_two_eq _ e h1 h2
  unfold roundDouble
  rw [if_neg hx]
  simp only [he]
  obtain ⟨hlo, hhi⟩ := abs_lt.1 hn
  generalize x / (2 : ℚ) ^ (e - 52) = q at hlo hhi ⊢
  have hf1 : (⌊q⌋ : ℚ) ≤ q := Int.floor_le q
  have hf2 : q < ⌊q⌋ + 1 := Int.lt_floor_add_one q
  have hcase : ⌊q⌋ = n ∨ ⌊q⌋ = n - 1 := by
    have a : (n : ℚ) - 1 < ⌊q⌋ + 1 := by linarith
    have b : (⌊q⌋ : ℚ) < n + 1 / 2 := by linarith
    have a' : n - 1 < ⌊q⌋ + 1 := by exact_mod_cast a
    have b' : ⌊q⌋ < n + 1 := by
      have : (⌊q⌋ : ℚ) < n + 1 := by linarith
      exact_mod_cast this
    omega
  rcases hcase with h | h
  · rw [h]
    rw [if_pos (by linarith)]
  · rw [h]
    have hq : (1 : ℚ) / 2 < q - ((n - 1 : ℤ) : ℚ) := by push_cast; linarith
    rw [if_neg (by linarith), if_pos hq]
    norm_num

/-- The double nearest to 0.01. -/
theorem roundDouble_step : roundDouble 0.01 = 5764607523034235 / 576460752303423488 := by
  have h := roundDouble_eq 0.01 (-7) 5764607523034235
    (by rw [abs_of_pos (by norm_num)]; norm_num)
    (by rw [abs_of_pos (by norm_num)]; norm_num)
    (by rw [abs_lt]; constructor <;> norm_num)
  rw [h]
  norm_num

/-- In doubles `1e16 + 0.01` is `1e16`: the step is absorbed. -/
theorem addDouble_absorbed :
    addDouble 10000000000000000 (roundDouble 0.01) = 10000000000000000 := by
  rw [roundDouble_step, addDouble]
  have h := roundDouble_eq (10000000000000000 + 5764607523034235 / 576460752303423488) 53
    5000000000000000
    (by rw [abs_of_pos (by norm_num)]; norm_num)
    (by rw [abs_of_pos (by norm_num)]; norm_num)
    (by rw [abs_lt]; constructor <;> norm_num)
  rw [h]
  norm_num

/-- A concrete run of the loop in doubles: on `[0, 0.015)` the body runs at
the times 0 and 0.01 (the double) and the loop ends at the third test. -/
theorem sampleLoopDouble_example (g : ℚ) (line : Int) (st : SampleState) :
    sampleLoopDouble g (linePath ⟨0, 0, 1⟩ ⟨0, 0, 0⟩ 0 0.015) line 2 0 st =
      some (sampleBody g (linePath ⟨0, 0, 1⟩ ⟨0, 0, 0⟩ 0 0.015) line (roundDouble 0.01)
        (sampleBody g (linePath ⟨0, 0, 1⟩ ⟨0, 0, 0⟩ 0 0.015) line 0 st)) := by
  have he : (linePath ⟨0, 0, 1⟩ ⟨0, 0, 0⟩ 0 0.015).endTime = 0.015 := rfl
  have h1 : addDouble 0 (roundDouble 0.01) = roundDouble 0.01 := by
    rw [roundDouble_step, addDouble]
    have h := roundDouble_eq (0 + 5764607523034235 / 576460752303423488) (-7)
      5764607523034235
      (by rw [abs_of_pos (by norm_num)]; norm_num)
      (by rw [abs_of_pos (by norm_num)]; norm_num)
      (by rw [abs_lt]; constructor <;> norm_num)
    rw [h]
    norm_num
  have h2 : addDouble (roundDouble 0.01) (roundDouble 0.01) =
      5764607523034235 / 288230376151711744 := by
    rw [roundDouble_step, addDouble]
    have h := roundDouble_eq
      (5764607523034235 / 576460752303423488 + 5764607523034235 / 576460752303423488) (-6)
      5764607523034235
      (by rw [abs_of_pos (by norm_num)]; norm_num)
      (by rw [abs_of_pos (by norm_num)]; norm_num)
      (by rw [abs_lt]; constructor <;> norm_num)
    rw [h]
    norm_num
  rw [sampleLoopDouble, he, if_pos (by norm_num), h1, sampleLoopDouble, he,
    if_pos (by rw [roundDouble_step]; norm_num), h2, sampleLoopDouble, he,
    if_neg (by norm_num)]

/-- The doubles 0, 1, 2, 3 and `2 ^ 54` are their own roundings, and
`2 ^ 54 + 1` is rounded to `2 ^ 54`. -/
theorem roundDouble_values :
    roundDouble 0 = 0 ∧ roundDouble 1 = 1 ∧ roundDouble 2 = 2 ∧ roundDouble 3 = 3 ∧
      roundDouble 18014398509481984 = 18014398509481984 ∧
      roundDouble 18014398509481985 = 18014398509481984 := by
  refine ⟨by simp [roundDouble], ?_, ?_, ?_, ?_, ?_⟩
  · have h := roundDouble_eq 1 0 4503599627370496
      (by rw [abs_of_pos (by norm_num)]; norm_num)
      (by rw [abs_of_pos (by norm_num)]; norm_num)
      (by rw [abs_lt]; constructor <;> norm_num)
    rw [h]
    norm_num
  · have h := roundDouble_eq 2 1 4503599627370496
      (by rw [abs_of_pos (by norm_num)]; norm_num)
      (by rw [abs_of_pos (by norm_num)]; norm_num)
      (by rw [abs_lt]; constructor <;> norm_num)
    rw [h]
    norm_num
  · have h := roundDouble_eq 3 1 6755399441055744
      (by rw [abs_of_pos (by norm_num)]; norm_num)
      (by rw [abs_of_pos (by norm_num)]; norm_num)
      (by rw [abs_lt]; constructor <;> norm_num)
    rw [h]
    norm_num
  · have h := roundDouble_eq 18014398509481984 54 4503599627370496
      (by rw [abs_of_pos (by norm_num)]; norm_num)
      (by rw [abs_of_pos (by norm_num)]; norm_num)
      (by rw [abs_lt]; constructor <;> norm_num)
    rw [h]
    norm_num
  · have h := roundDouble_eq 18014398509481985 54 4503599627370496
      (by rw [abs_of_pos (by norm_num)]; norm_num)
      (by rw [abs_of_pos (by norm_num)]; norm_num)
      (by rw [abs_lt]; constructor <;> norm_num)
    rw [h]
    norm_num

/-- The sum of vectors, coefficient by coefficient. -/
theorem add_def_vec (a b : Vector3d) : a + b = ⟨a.x + b.x, a.y + b.y, a.z + b.z⟩ := rfl

/-- The loop over the drones of `check(Routine&)` is the loop with the stable
implementation. -/
theorem droneLoop_eq_with (g : ℚ) (homes : List Point) :
    ∀ (rest : List (List Action)) (j : Nat) (E : List FeasibilityError),
      droneLoop g homes j rest E = droneLoopWith stableSort g homes j rest E := by
  intro rest
  induction rest with
  | nil => intro j E; rfl
  | cons acts rest ih =>
    intro j E
    rw [droneLoop, droneLoopWith, ih]
    rfl

/-- The method `check(Routine&)` of the embedding is `checkWith` with the
stable implementation. -/
theorem check_eq_checkWith (c : FeasibilityChecker) (g : ℚ) (r : Routine) :
    c.check g r = c.checkWith stableSort g r := by
  simp only [FeasibilityChecker.check, FeasibilityChecker.checkWith, droneLoop_eq_with]
  rfl

/-- The errors after the walk over one drone, for any implementation. -/
theorem droneBodyWith_eq (S : StdSort) (g : ℚ) (homes : List Point) (j : Nat)
    (acts : List Action) (E : List FeasibilityError) :
    droneBodyWith S g homes j acts E =
      E ++ walkSpec g j 0 ⟨homes.getD j Vector3d.zero, Vector3d.zero, Vector3d.zero⟩
        (motionActionsWith S acts) := by
  simp [droneBodyWith, foldl_actionBody, droneInit, motionActionsWith]

/-- The errors after the loop over the drones, for any implementation. -/
theorem droneLoopWith_eq (S : StdSort) (g : ℚ) (homes : List Point) :
    ∀ (rest : List (List Action)) (j : Nat) (E : List FeasibilityError),
      droneLoopWith S g homes j rest E =
        E ++ (rest.enumFrom j).flatMap (fun p =>
          walkSpec g p.1 0 ⟨homes.getD p.1 Vector3d.zero, Vector3d.zero, Vector3d.zero⟩
            (motionActionsWith S p.2)) := by
  intro rest
  induction rest with
  | nil => intro j E; simp [droneLoopWith]
  | cons acts rest ih =>
    intro j E
    rw [droneLoopWith, droneBodyWith_eq, ih]
    simp [List.enumFrom_cons, List.flatMap_cons, List.append_assoc]

/-- The loop over the drones appends the walk errors, for any implementation. -/
theorem droneLoopWith_append (S : StdSort) (g : ℚ) (r : Routine) (E : List FeasibilityError) :
    droneLoopWith S g r.homes 0 r.actions E = E ++ walkErrorsWith S g r := by
  rw [droneLoopWith_eq, walkErrorsWith, droneLoopWith_eq]
  simp

/-- The error list after `check(Routine&)`, for any implementation. -/
theorem checkWith_errors (S : StdSort) (c : FeasibilityChecker) (g : ℚ) (r : Routine) :
    (c.checkWith S g r).checker.errors = S.sortErrors (c.errors ++ walkErrorsWith S g r) := by
  simp [FeasibilityChecker.checkWith, droneLoopWith_append]

/-- The boolean returned by `check(Routine&)`, for any implementation. -/
theorem checkWith_ret (S : StdSort) (c : FeasibilityChecker) (g : ℚ) (r : Routine) :
    (c.checkWith S g r).ret = decide ((c.checkWith S g r).checker.errors = []) := by
  simp [FeasibilityChecker.checkWith, List.length_eq_zero]

/-- The walk errors of `check(Routine&)` are those of the stable
implementation. -/
theorem walkErrors_eq_with (g : ℚ) (r : Routine) :
    walkErrors g r = walkErrorsWith stableSort g r :=
  droneLoop_eq_with g r.homes r.actions 0 []

/-- The loop over the drones depends on the actions of each drone through
their Motion actions in the order of the walk only, for any implementation. -/
theorem droneLoopWith_congr (S : StdSort) (g : ℚ) (homes : List Point) :
    ∀ (l l' : List (List Action)),
      List.Forall₂ (fun a b => motionActionsWith S a = motionActionsWith S b) l l' →
      ∀ (j : Nat) (E : List FeasibilityError),
        droneLoopWith S g homes j l E = droneLoopWith S g homes j l' E := by
  intro l l' h
  induction h with
  | nil => intro j E; rfl
  | cons hab _ ih =>
    intro j E
    rw [droneLoopWith, droneLoopWith, droneBodyWith_eq, droneBodyWith_eq, hab, ih]

/-- Without its Light actions a drone has the same Motion actions. -/
theorem filterMap_removeLights (l : List Action) :
    (l.filter (fun a => !a.IsLightAction)).filterMap Action.asMotion =
      l.filterMap Action.asMotion := by
  rw [List.filterMap_filter]
  congr 1
  funext a
  cases a <;> rfl

/-- The Motion actions in the order of the walk are sorted by start time, for
any implementation. -/
theorem motionActionsWith_sorted (S : StdSort) (acts : List Action) :
    List.Sorted (fun a b : MotionAction => a.startTime ≤ b.startTime)
      (motionActionsWith S acts) := by
  refine List.Pairwise.filterMap Action.asMotion ?_ (S.actions_sorted acts)
  intro a a' h b hb b' hb'
  cases a with
  | light s e l => simp [Action.asMotion] at hb
  | motion ma =>
    cases a' with
    | light s e l => simp [Action.asMotion] at hb'
    | motion ma' =>
      simp only [Action.asMotion, Option.mem_def, Option.some.injEq] at hb hb'
      subst hb
      subst hb'
      exact h

/-- When the Motion actions of a drone have pairwise distinct start times, the
walk meets them in the same order with and without the Light actions, for any
implementation. -/
theorem motionActionsWith_filter (S : StdSort) (acts : List Action)
    (hd : ((acts.filterMap Action.asMotion).map (fun m => m.startTime)).Nodup) :
    motionActionsWith S (acts.filter (fun a => !a.IsLightAction)) =
      motionActionsWith S acts := by
  have p1 : (motionActionsWith S (acts.filter (fun a => !a.IsLightAction))).Perm
      (acts.filterMap Action.asMotion) := by
    rw [← filterMap_removeLights acts]
    exact (S.actions_perm _).filterMap _
  have p2 : (motionActionsWith S acts).Perm (acts.filterMap Action.asMotion) :=
    (S.actions_perm _).filterMap _
  refine List.Perm.eq_of_sorted ?_ (motionActionsWith_sorted S _) (motionActionsWith_sorted S _)
    (p1.trans p2.symm)
  intro a b ha hb hab hba
  exact List.inj_on_of_nodup_map hd (p1.subset ha) (p2.subset hb) (le_antisymm hab hba)

/-- The walk over two Motion actions that hover at the home on `[0, 1]`: the
second one starts at 0 while the first one ended at 1, which gives one
time-discontinuity error, on the line of the second one. -/
theorem walkSpec_tied (l1 l2 : Int) :
    walkSpec 9.8 0 0 ⟨⟨0, 0, 0⟩, Vector3d.zero, Vector3d.zero⟩
        [⟨0, 1, l1, linePath ⟨0, 0, 0⟩ ⟨0, 0, 0⟩ 0 1⟩,
          ⟨0, 1, l2, linePath ⟨0, 0, 0⟩ ⟨0, 0, 0⟩ 0 1⟩] =
      [⟨l2, timeText 0 0 1⟩] := by
  have h : ∀ l : Int, trajErrors 9.8 (linePath ⟨0, 0, 0⟩ ⟨0, 0, 0⟩ 0 1) l = [] := fun l =>
    (trajErrors_eq_nil_iff _ _ _).2 fun t _ =>
      linePath_no_violation 9.8 (by norm_num) _ _ _ _ t (by norm_num [Vector3d.squaredNorm])
  have h0 : floatComp 0 0 = true := by
    simp only [floatComp, decide_eq_true_eq]
    norm_num
  have h1 : floatComp 0 1 = false := by
    simp only [floatComp, decide_eq_false_iff_not]
    norm_num
  have h2 : pointComp (⟨0, 0, 0⟩ : Vector3d) ⟨0, 0, 0⟩ = true := by
    simp only [pointComp, Vector3d.normLt, decide_eq_true_eq]
    show (0 : ℚ) < 0.1 ∧ (0 - 0 : ℚ) * (0 - 0) + (0 - 0) * (0 - 0) + (0 - 0) * (0 - 0) < 0.1 * 0.1
    norm_num
  simp only [linePath, Vector3d.zero, zero_mul, add_zero] at h
  simp [walkSpec, motionErrors, timeErrors, spatialErrors, velAccErrors, h, h0, h1, linePath,
    Vector3d.zero, h2]

/-- The call of `reorderingSort` on a list of actions. -/
theorem reorderingSort_sortActions (l : List Action) :
    reorderingSort.sortActions l =
      if l.length ≤ 16 then sortActions l else sortActions l.reverse := rfl

/-- The call of `reorderingSort` on a list of errors. -/
theorem reorderingSort_sortErrors (l : List FeasibilityError) :
    reorderingSort.sortErrors l =
      if l.length ≤ 16 then sortErrors l else sortErrors l.reverse := rfl

/-- With the implementation `reorderingSort` the walk over `tiedRoutine`
meets `tiedM2` before `tiedM1`. -/
theorem motionActionsWith_tied :
    motionActionsWith reorderingSort
        (List.replicate 15 (Action.light 0 1 3) ++
          [Action.motion tiedM1, Action.motion tiedM2]) =
      [tiedM2, tiedM1] := by
  have hlen : ¬ (List.replicate 15 (Action.light 0 1 3) ++
      [Action.motion tiedM1, Action.motion tiedM2]).length ≤ 16 := by
    simp
  have hrev : (List.replicate 15 (Action.light 0 1 3) ++
      [Action.motion tiedM1, Action.motion tiedM2]).reverse =
      Action.motion tiedM2 :: Action.motion tiedM1 :: List.replicate 15 (Action.light 0 1 3) := by
    simp [List.reverse_append]
  have hs : List.Sorted (fun lhs rhs : Action => lhs.GetStartTime ≤ rhs.GetStartTime)
      (Action.motion tiedM2 :: Action.motion tiedM1 ::
        List.replicate 15 (Action.light 0 1 3)) := by
    apply List.pairwise_of_forall_mem_list
    intro a ha b hb
    have hz : ∀ c ∈ Action.motion tiedM2 :: Action.motion tiedM1 ::
        List.replicate 15 (Action.light 0 1 3), c.GetStartTime = 0 := by
      intro c hc
      simp only [List.mem_cons, List.mem_replicate] at hc
      rcases hc with rfl | rfl | ⟨_, rfl⟩ <;> rfl
    rw [hz a ha, hz b hb]
  have hf : (List.replicate 15 (Action.light 0 1 3)).filterMap Action.asMotion = [] := by
    apply List.filterMap_eq_nil_iff.2
    intro a ha
    rw [(List.mem_replicate.1 ha).2]
    rfl
  rw [motionActionsWith, reorderingSort_sortActions, if_neg hlen, hrev, sortActions,
    hs.insertionSort_eq]
  simp only [List.filterMap_cons, Action.asMotion, hf]

/-- The result of `check(Routine&)` depends on the actions of each drone
through their Motion actions in the order of the walk only, for any
implementation. -/
theorem checkWith_congr (S : StdSort) (c : FeasibilityChecker) (g : ℚ) (r r' : Routine)
    (hh : r.homes = r'.homes)
    (h : List.Forall₂ (fun a b => motionActionsWith S a = motionActionsWith S b)
      r.actions r'.actions) :
    c.checkWith S g r = c.checkWith S g r' := by
  simp only [FeasibilityChecker.checkWith, hh, droneLoopWith_congr S g r'.homes _ _ h]

/-! ### The claims -/

/-- C1: at a hovering trajectory the call `check(Trajectory, line)` appends
no error (the error list is as long as before) and nevertheless returns
false, where the contract asks for true. -/
theorem checkTraj_hover_false :
    ((FeasibilityChecker.mk []).checkTraj 9.8 (linePath ⟨0, 0, 1⟩ ⟨0, 0, 0⟩ 0 1) 7).1 = false ∧
      ((FeasibilityChecker.mk []).checkTraj 9.8
        (linePath ⟨0, 0, 1⟩ ⟨0, 0, 0⟩ 0 1) 7).2.errors.length =
        (FeasibilityChecker.mk []).errors.length := by
  refine ⟨rfl, ?_⟩
  have h : trajErrors 9.8 (linePath ⟨0, 0, 1⟩ ⟨0, 0, 0⟩ 0 1) 7 = [] :=
    (trajErrors_eq_nil_iff _ _ _).2 fun t _ =>
      linePath_no_violation 9.8 (by norm_num) _ _ _ _ t (by norm_num [Vector3d.squaredNorm])
  rw [checkTraj_errors, h]
  rfl

/-- C2, counterexample: with an empty list at the start, a first
`check(Routine)` of `lateRoutine` leaves one error; a second one with the same
checker leaves two, so the list is not the one of the first run and does not
hold only the errors of the second run. -/
theorem check_twice_differs :
    (((FeasibilityChecker.mk []).check 9.8 lateRoutine).checker.check 9.8
        lateRoutine).checker.errors ≠
      ((FeasibilityChecker.mk []).check 9.8 lateRoutine).checker.errors ∧
    ((FeasibilityChecker.mk []).check 9.8 lateRoutine).checker.errors =
      [⟨5, timeText 0 1 0⟩] ∧
    (((FeasibilityChecker.mk []).check 9.8 lateRoutine).checker.check 9.8
        lateRoutine).checker.errors = [⟨5, timeText 0 1 0⟩, ⟨5, timeText 0 1 0⟩] := by
  have e1 : ((FeasibilityChecker.mk []).check 9.8 lateRoutine).checker.errors =
      [⟨5, timeText 0 1 0⟩] := by
    rw [check_errors, walkErrors_lateRoutine]
    simp [sortErrors]
  have e2 : (((FeasibilityChecker.mk []).check 9.8 lateRoutine).checker.check 9.8
      lateRoutine).checker.errors = [⟨5, timeText 0 1 0⟩, ⟨5, timeText 0 1 0⟩] := by
    rw [check_errors, e1, walkErrors_lateRoutine]
    simp [sortErrors, FeasibilityError.le]
  refine ⟨?_, e1, e2⟩
  rw [e1, e2]
  simp

/-- C2, amended: `check(Routine)` does not clear the error list. For every
implementation of `std::sort`, every Routine and every prior content, the list
after the call holds the prior content together with the errors of this run
(only the errors of this run when the list was empty before). A second call
with the same checker returns the same boolean as the first one and adds the
errors of the run once more: the second list is longer than the first, hence
another list, whenever the run records an error, and it has the entries of the
first list when the run records none. -/
theorem check_accumulates (S : StdSort) (c : FeasibilityChecker) (g : ℚ) (r : Routine) :
    (c.checkWith S g r).checker.errors.Perm (c.errors ++ walkErrorsWith S g r) ∧
      (c.errors = [] → (c.checkWith S g r).checker.errors.Perm (walkErrorsWith S g r)) ∧
      ((c.checkWith S g r).checker.checkWith S g r).checker.errors.Perm
        ((c.checkWith S g r).checker.errors ++ walkErrorsWith S g r) ∧
      ((c.checkWith S g r).checker.checkWith S g r).ret = (c.checkWith S g r).ret ∧
      ((c.checkWith S g r).checker.checkWith S g r).checker.errors.length =
        (c.checkWith S g r).checker.errors.length + (walkErrorsWith S g r).length ∧
      (walkErrorsWith S g r ≠ [] →
        ((c.checkWith S g r).checker.checkWith S g r).checker.errors ≠
          (c.checkWith S g r).checker.errors) ∧
      (walkErrorsWith S g r = [] →
        ((c.checkWith S g r).checker.checkWith S g r).checker.errors.Perm
          (c.checkWith S g r).checker.errors) := by
  have p1 : (c.checkWith S g r).checker.errors.Perm (c.errors ++ walkErrorsWith S g r) := by
    rw [checkWith_errors]
    exact S.errors_perm _
  have p2 : ((c.checkWith S g r).checker.checkWith S g r).checker.errors.Perm
      ((c.checkWith S g r).checker.errors ++ walkErrorsWith S g r) := by
    rw [checkWith_errors S (c.checkWith S g r).checker]
    exact S.errors_perm _
  have hl : ((c.checkWith S g r).checker.checkWith S g r).checker.errors.length =
      (c.checkWith S g r).checker.errors.length + (walkErrorsWith S g r).length := by
    rw [p2.length_eq, List.length_append]
  refine ⟨p1, ?_, p2, ?_, hl, ?_, ?_⟩
  · intro h
    rw [h, List.nil_append] at p1
    exact p1
  · rw [checkWith_ret, checkWith_ret]
    have e1 : (c.checkWith S g r).checker.errors = [] ↔
        c.errors = [] ∧ walkErrorsWith S g r = [] := by
      rw [← List.length_eq_zero, p1.length_eq, List.length_append, Nat.add_eq_zero_iff,
        List.length_eq_zero, List.length_eq_zero]
    have e2 : ((c.checkWith S g r).checker.checkWith S g r).checker.errors = [] ↔
        (c.checkWith S g r).checker.errors = [] ∧ walkErrorsWith S g r = [] := by
      rw [← List.length_eq_zero, hl, Nat.add_eq_zero_iff, List.length_eq_zero,
        List.length_eq_zero]
    simp only [e2, e1]
    by_cases h : walkErrorsWith S g r = [] <;> simp [h]
  · intro h heq
    have := congrArg List.length heq
    rw [hl] at this
    exact h (List.length_eq_zero.1 (by omega))
  · intro h
    rw [h, List.append_nil] at p2
    exact p2

/-- C2, witness: for `lateRoutine` the run records an error, so the list
after a second call is another list than the one after the first call; for the
routine without drones the run records none and an earlier error stays in the
list. -/
theorem check_accumulates_witness :
    (walkErrorsWith stableSort 9.8 lateRoutine ≠ [] ∧
      (((FeasibilityChecker.mk []).checkWith stableSort 9.8 lateRoutine).checker.checkWith
          stableSort 9.8 lateRoutine).checker.errors ≠
        ((FeasibilityChecker.mk []).checkWith stableSort 9.8 lateRoutine).checker.errors) ∧
    (walkErrorsWith stableSort 9.8 ⟨[], []⟩ = [] ∧
      (((FeasibilityChecker.mk [⟨3, "earlier"⟩]).checkWith stableSort 9.8
          ⟨[], []⟩).checker.checkWith stableSort 9.8 ⟨[], []⟩).checker.errors.Perm
        ((FeasibilityChecker.mk [⟨3, "earlier"⟩]).checkWith stableSort 9.8
          ⟨[], []⟩).checker.errors) ∧
    ((FeasibilityChecker.mk []).errors = [] ∧
      ((FeasibilityChecker.mk []).checkWith stableSort 9.8 lateRoutine).checker.errors.Perm
        (walkErrorsWith stableSort 9.8 lateRoutine)) := by
  have h1 : walkErrorsWith stableSort 9.8 lateRoutine ≠ [] := by
    rw [← walkErrors_eq_with, walkErrors_lateRoutine]
    exact List.cons_ne_nil _ _
  have h2 : walkErrorsWith stableSort 9.8 ⟨[], []⟩ = [] := rfl
  exact ⟨⟨h1, (check_accumulates stableSort ⟨[]⟩ 9.8 lateRoutine).2.2.2.2.2.1 h1⟩,
    ⟨h2, (check_accumulates stableSort ⟨[⟨3, "earlier"⟩]⟩ 9.8 ⟨[], []⟩).2.2.2.2.2.2 h2⟩,
    ⟨rfl, (check_accumulates stableSort ⟨[]⟩ 9.8 lateRoutine).2.1 rfl⟩⟩

/-- C3: started with an empty error list, `check(Routine)` returns true
exactly when the walk recorded no error, which is exactly when the error list
is empty on return; the nested `check(Trajectory, line)` returns false on
every input, so its boolean has no part in the result. -/
theorem check_ret_iff (g : ℚ) (r : Routine) :
    (((FeasibilityChecker.mk []).check g r).ret = true ↔ walkErrors g r = []) ∧
      (((FeasibilityChecker.mk []).check g r).ret = true ↔
        ((FeasibilityChecker.mk []).check g r).checker.errors = []) ∧
      ∀ (c : FeasibilityChecker) (traj : Trajectory) (line : Int),
        (c.checkTraj g traj line).1 = false := by
  refine ⟨?_, ?_, fun _ _ _ => rfl⟩
  · rw [check_ret, check_errors, decide_eq_true_eq, sortErrors_eq_nil, List.nil_append]
  · rw [check_ret, decide_eq_true_eq]

/-- C9: `CompoundTrajectory(x1, x2).evaluate(t)` is, for every time `t` (no
clamping, no validation), the coefficient-wise sum of `x1.evaluate(t)` and
`x2.evaluate(t)` in position, velocity and acceleration. -/
theorem compound_evaluate_sum (x1 x2 : Trajectory) (t1 t2 t : ℚ) :
    let s := (CompoundTrajectory x1 x2 t1 t2).evaluate t
    let s1 := x1.evaluate t
    let s2 := x2.evaluate t
    (s.position.x = s1.position.x + s2.position.x ∧
      s.position.y = s1.position.y + s2.position.y ∧
      s.position.z = s1.position.z + s2.position.z) ∧
    (s.velocity.x = s1.velocity.x + s2.velocity.x ∧
      s.velocity.y = s1.velocity.y + s2.velocity.y ∧
      s.velocity.z = s1.velocity.z + s2.velocity.z) ∧
    (s.acceleration.x = s1.acceleration.x + s2.acceleration.x ∧
      s.acceleration.y = s1.acceleration.y + s2.acceleration.y ∧
      s.acceleration.z = s1.acceleration.z + s2.acceleration.z) := by
  intro s s1 s2
  exact ⟨⟨rfl, rfl, rfl⟩, ⟨rfl, rfl, rfl⟩, ⟨rfl, rfl, rfl⟩⟩

/-- C10: `TransformedTrajectory(x, M, P).evaluate(t)` has position
`M * x.position(t) + P`, velocity `M * x.velocity(t)` and acceleration
`M * x.acceleration(t)`; velocity and acceleration are the same for every
translation `P`. -/
theorem transformed_evaluate (x : Trajectory) (m : Matrix3d) (p : Vector3d) (t1 t2 t : ℚ) :
    let s := (TransformedTrajectory x m p t1 t2).evaluate t
    s.position = m.mulVec (x.evaluate t).position + p ∧
    s.velocity = m.mulVec (x.evaluate t).velocity ∧
    s.acceleration = m.mulVec (x.evaluate t).acceleration ∧
    ∀ (q : Vector3d) (u1 u2 : ℚ),
      ((TransformedTrajectory x m q u1 u2).evaluate t).velocity = s.velocity ∧
      ((TransformedTrajectory x m q u1 u2).evaluate t).acceleration = s.acceleration := by
  intro s
  exact ⟨rfl, rfl, rfl, fun _ _ _ => ⟨rfl, rfl⟩⟩

/-- C11: `TransformedTrajectory(x, identity, zero).evaluate(t)` is
`x.evaluate(t)` for every child `x` and every time `t`, in position, velocity
and acceleration. -/
theorem transformed_identity (x : Trajectory) (t1 t2 t : ℚ) :
    (TransformedTrajectory x Matrix3d.identity Vector3d.zero t1 t2).evaluate t =
        x.evaluate t ∧
      ((TransformedTrajectory x Matrix3d.identity Vector3d.zero t1 t2).evaluate t).position =
        (x.evaluate t).position ∧
      ((TransformedTrajectory x Matrix3d.identity Vector3d.zero t1 t2).evaluate t).velocity =
        (x.evaluate t).velocity ∧
      ((TransformedTrajectory x Matrix3d.identity Vector3d.zero t1 t2).evaluate t).acceleration =
        (x.evaluate t).acceleration := by
  have h : (TransformedTrajectory x Matrix3d.identity Vector3d.zero t1 t2).evaluate t =
      x.evaluate t := by
    simp only [TransformedTrajectory, identity_mulVec, add_zero_vec]
  rw [h]
  exact ⟨rfl, rfl, rfl, rfl⟩

/-- C12: when `check(Routine)` returns, the error list of the checker is
sorted by source line in non-decreasing order; it is a permutation of the
list that was sorted, which is the list before the call followed by the errors
collected during the walk (the errors of the walk alone when the list was
empty before the call), so that no error is dropped or duplicated; the lines
written to the output are the entries of the sorted list, in order. -/
theorem check_sorted_perm (c : FeasibilityChecker) (g : ℚ) (r : Routine) :
    List.Sorted (fun a b : FeasibilityError => a.line ≤ b.line) (c.check g r).checker.errors ∧
      (c.check g r).checker.errors.Perm (c.errors ++ walkErrors g r) ∧
      ((FeasibilityChecker.mk []).check g r).checker.errors.Perm (walkErrors g r) ∧
      (∀ e : FeasibilityError,
        (c.check g r).checker.errors.count e = (c.errors ++ walkErrors g r).count e) ∧
      (c.check g r).out =
        (c.check g r).checker.errors.map
          (fun s => "Line " ++ toString s.line ++ ": " ++ s.text) := by
  have hp : (c.check g r).checker.errors.Perm (c.errors ++ walkErrors g r) := by
    rw [check_errors]
    exact sortErrors_perm _
  refine ⟨?_, hp, ?_, fun e => hp.count_eq e, rfl⟩
  · rw [check_errors]
    exact sortErrors_sorted _
  · rw [check_errors]
    exact sortErrors_perm _

/-- C13: the action collection of a drone is order-irrelevant. When the
actions of one drone have pairwise distinct start times, supplying them in
another order gives the same result of `check(Routine)`: the same boolean, the
same error list and the same output. -/
theorem check_perm_invariant (c : FeasibilityChecker) (g : ℚ) (homes : List Point)
    (before after : List (List Action)) (acts acts' : List Action) (hp : acts.Perm acts')
    (hd : (acts.map Action.GetStartTime).Nodup) :
    c.check g ⟨before ++ acts :: after, homes⟩ = c.check g ⟨before ++ acts' :: after, homes⟩ ∧
      (c.check g ⟨before ++ acts :: after, homes⟩).ret =
        (c.check g ⟨before ++ acts' :: after, homes⟩).ret ∧
      (c.check g ⟨before ++ acts :: after, homes⟩).checker.errors =
        (c.check g ⟨before ++ acts' :: after, homes⟩).checker.errors := by
  have h : c.check g ⟨before ++ acts :: after, homes⟩ =
      c.check g ⟨before ++ acts' :: after, homes⟩ := by
    refine check_congr c g ⟨before ++ acts :: after, homes⟩ ⟨before ++ acts' :: after, homes⟩
      rfl ?_
    have hrefl : ∀ l : List (List Action),
        List.Forall₂ (fun a b => motionActions a = motionActions b) l l :=
      fun l => List.forall₂_same.2 fun _ _ => rfl
    have heq : motionActions acts = motionActions acts' := by
      rw [motionActions, motionActions, sortActions_perm_eq acts acts' hp hd]
    exact List.rel_append (hrefl before) (List.Forall₂.cons heq (hrefl after))
  rw [h]
  exact ⟨rfl, rfl, rfl⟩

/-- C13, witness: drone 0 with the actions B and A supplied in this order and
in the order A, B; the start times 2 and 0 are distinct. -/
theorem check_perm_invariant_witness :
    [Action.motion actionB, Action.motion actionA].Perm
        [Action.motion actionA, Action.motion actionB] ∧
      ([Action.motion actionB, Action.motion actionA].map Action.GetStartTime).Nodup ∧
      (FeasibilityChecker.mk []).check 9.8
          ⟨[] ++ [Action.motion actionB, Action.motion actionA] :: [], [⟨0, 0, 0⟩]⟩ =
        (FeasibilityChecker.mk []).check 9.8
          ⟨[] ++ [Action.motion actionA, Action.motion actionB] :: [], [⟨0, 0, 0⟩]⟩ :=
  have hp : [Action.motion actionB, Action.motion actionA].Perm
      [Action.motion actionA, Action.motion actionB] := List.Perm.swap _ _ []
  have hd : ([Action.motion actionB, Action.motion actionA].map Action.GetStartTime).Nodup := by
    simp [Action.GetStartTime, actionA, actionB]
  ⟨hp, hd, (check_perm_invariant ⟨[]⟩ 9.8 [⟨0, 0, 0⟩] [] [] _ _ hp hd).1⟩

/-- C14, counterexample: a conforming `std::sort` need not keep the encounter
order of actions with the same start time. With the implementation
`reorderingSort` the walk over `tiedRoutine` (15 Light actions and two Motion
actions, all starting at 0) meets the second Motion action first and records
the error on line 1; over the same routine without its Light actions it meets
them in the supplied order and records the error on line 2. -/
theorem check_removeLights_differs :
    ((FeasibilityChecker.mk []).checkWith reorderingSort 9.8 tiedRoutine).checker.errors =
        [⟨1, timeText 0 0 1⟩] ∧
      ((FeasibilityChecker.mk []).checkWith reorderingSort 9.8
        (removeLights tiedRoutine)).checker.errors = [⟨2, timeText 0 0 1⟩] ∧
      ((FeasibilityChecker.mk []).checkWith reorderingSort 9.8
        (removeLights tiedRoutine)).checker.errors ≠
        ((FeasibilityChecker.mk []).checkWith reorderingSort 9.8 tiedRoutine).checker.errors := by
  have hsingle : ∀ e : FeasibilityError, reorderingSort.sortErrors [e] = [e] := by
    intro e
    rw [reorderingSort_sortErrors, if_pos (by simp)]
    rfl
  have e1 : ((FeasibilityChecker.mk []).checkWith reorderingSort 9.8
      tiedRoutine).checker.errors = [⟨1, timeText 0 0 1⟩] := by
    rw [checkWith_errors, walkErrorsWith, droneLoopWith_eq]
    simp only [tiedRoutine, List.enumFrom, List.flatMap_cons, List.flatMap_nil,
      List.append_nil, List.nil_append, motionActionsWith_tied, List.getD_cons_zero]
    rw [tiedM1, tiedM2, walkSpec_tied, hsingle]
  have hrem : removeLights tiedRoutine =
      ⟨[[Action.motion tiedM1, Action.motion tiedM2]], [⟨0, 0, 0⟩]⟩ := by
    simp [removeLights, tiedRoutine, List.filter_append, List.filter_replicate,
      Action.IsLightAction]
  have hm : motionActionsWith reorderingSort [Action.motion tiedM1, Action.motion tiedM2] =
      [tiedM1, tiedM2] := by
    rw [motionActionsWith, reorderingSort_sortActions, if_pos (by simp)]
    exact motionActions_pair tiedM1 tiedM2 (le_refl _)
  have e2 : ((FeasibilityChecker.mk []).checkWith reorderingSort 9.8
      (removeLights tiedRoutine)).checker.errors = [⟨2, timeText 0 0 1⟩] := by
    rw [hrem, checkWith_errors, walkErrorsWith, droneLoopWith_eq]
    simp only [List.enumFrom, List.flatMap_cons, List.flatMap_nil,
      List.append_nil, List.nil_append, hm, List.getD_cons_zero]
    rw [tiedM1, tiedM2, walkSpec_tied, hsingle]
  refine ⟨e1, e2, ?_⟩
  rw [e1, e2]
  intro h
  have := congrArg (fun l => l.map (fun e => e.line)) h
  simp at this

/-- C14, amended: Light actions do not affect the analysis when the Motion
actions of every drone have pairwise distinct start times. Then, for every
implementation of `std::sort`, `check(Routine)` gives the same result
(boolean, error list and output) on the routine and on the routine without its
Light actions. For every routine, the body of the walk leaves the error list,
the running time and the running state as they are at a Light action. -/
theorem check_removeLights (S : StdSort) (c : FeasibilityChecker) (g : ℚ) (r : Routine)
    (h : ∀ acts ∈ r.actions,
      ((acts.filterMap Action.asMotion).map (fun m => m.startTime)).Nodup) :
    c.checkWith S g (removeLights r) = c.checkWith S g r ∧
      (c.checkWith S g (removeLights r)).ret = (c.checkWith S g r).ret ∧
      (c.checkWith S g (removeLights r)).checker.errors = (c.checkWith S g r).checker.errors ∧
      c.check g (removeLights r) = c.check g r ∧
      (∀ acts ∈ (removeLights r).actions, ∀ a ∈ acts, a.IsLightAction = false) ∧
      ∀ (j : Nat) (st : WalkState) (s e : ℚ) (l : Int),
        actionBody g j st (Action.light s e l) = st := by
  have key : ∀ T : StdSort, c.checkWith T g (removeLights r) = c.checkWith T g r := by
    intro T
    refine checkWith_congr T c g (removeLights r) r rfl ?_
    show List.Forall₂ _ (r.actions.map _) r.actions
    rw [List.forall₂_map_left_iff]
    exact List.forall₂_same.2 fun acts hacts => motionActionsWith_filter T acts (h acts hacts)
  refine ⟨key S, by rw [key S], by rw [key S], ?_, ?_, fun _ _ _ _ _ => rfl⟩
  · rw [check_eq_checkWith, check_eq_checkWith, key stableSort]
  · intro acts hacts a ha
    simp only [removeLights, List.mem_map] at hacts
    obtain ⟨l, _, rfl⟩ := hacts
    simpa using (List.mem_filter.1 ha).2

/-- C14, witness: drone 0 with a Light action and the Motion actions A and B,
whose start times 0 and 2 are distinct; the Light action starts together with
A. -/
theorem check_removeLights_witness :
    (∀ acts ∈ lightRoutine.actions,
      ((acts.filterMap Action.asMotion).map (fun m => m.startTime)).Nodup) ∧
      (FeasibilityChecker.mk []).checkWith reorderingSort 9.8 (removeLights lightRoutine) =
        (FeasibilityChecker.mk []).checkWith reorderingSort 9.8 lightRoutine ∧
      (FeasibilityChecker.mk []).check 9.8 (removeLights lightRoutine) =
        (FeasibilityChecker.mk []).check 9.8 lightRoutine := by
  have h : ∀ acts ∈ lightRoutine.actions,
      ((acts.filterMap Action.asMotion).map (fun m => m.startTime)).Nodup := by
    intro acts hacts
    simp only [lightRoutine, List.mem_singleton] at hacts
    subst hacts
    simp [Action.asMotion, actionA, actionB]
  exact ⟨h, (check_removeLights reorderingSort ⟨[]⟩ 9.8 lightRoutine h).1,
    (check_removeLights reorderingSort ⟨[]⟩ 9.8 lightRoutine h).2.2.2.1⟩

/-- C15: on the path from `1e16` to `1e16 + 2` the sampling loop of
`check(Trajectory, line)` never ends: in doubles `t += 0.01` leaves
`t = 1e16`, so the condition `t < endTime` holds at every test, whatever the
number of tests. -/
theorem sampleLoopDouble_stalls (g : ℚ) (line : Int) (fuel : Nat) (st : SampleState) :
    farPath.startTime ≤ farPath.endTime ∧
      addDouble farPath.startTime (roundDouble 0.01) = farPath.startTime ∧
      sampleLoopDouble g farPath line fuel farPath.startTime st = none := by
  have hs : farPath.startTime = 10000000000000000 := rfl
  have he : farPath.endTime = 10000000000000002 := rfl
  have hlt : (10000000000000000 : ℚ) < farPath.endTime := by rw [he]; norm_num
  refine ⟨by rw [hs, he]; norm_num, by rw [hs]; exact addDouble_absorbed, ?_⟩
  rw [hs]
  induction fuel generalizing st with
  | zero => rw [sampleLoopDouble, if_pos hlt]
  | succ n ih => rw [sampleLoopDouble, if_pos hlt, addDouble_absorbed, ih]

/-- C16: motion-capture frame handling. The calls of `mocap_update` made by
`mocap_callback` correspond one to one, in frame order, to the rigid bodies of
the frame whose identifier is registered and whose `params` has its lowest bit
set (`params & 0x01` is not zero); no call is made for another body. The call
for such a body goes to the vehicle registered under its identifier, with the
position `(-x, z, y)` and the quaternion `(qw, -qx, qz, qy)`. -/
theorem mocap_callback_spec {V : Type} (pFrameOfData : sFrameOfMocapData) (inst : Mocap V) :
    List.Forall₂
        (fun rb u => inst.tracked rb.ID = some u.vehicle ∧
          u.pos = ⟨-rb.x, rb.z, rb.y⟩ ∧ u.quat = ⟨rb.qw, -rb.qx, rb.qz, rb.qy⟩)
        (pFrameOfData.RigidBodies.filter (isDelivered inst))
        (mocap_callback pFrameOfData inst) ∧
      (mocap_callback pFrameOfData inst).length =
        (pFrameOfData.RigidBodies.filter (isDelivered inst)).length ∧
      (∀ rb : sRigidBodyData,
        isDelivered inst rb = true ↔
          (∃ v, inst.tracked rb.ID = some v) ∧ Int.land rb.params 0x01 ≠ 0) ∧
      (∀ p : Int, Int.land p 0x01 ≠ 0 ↔ p.testBit 0 = true) := by
  have h : List.Forall₂
      (fun rb (u : MocapUpdate V) => inst.tracked rb.ID = some u.vehicle ∧
        u.pos = ⟨-rb.x, rb.z, rb.y⟩ ∧ u.quat = ⟨rb.qw, -rb.qx, rb.qz, rb.qy⟩)
      (pFrameOfData.RigidBodies.filter (isDelivered inst))
      (mocap_callback pFrameOfData inst) := by
    rw [mocap_callback]
    generalize pFrameOfData.RigidBodies = bodies
    induction bodies with
    | nil => exact List.Forall₂.nil
    | cons rb rest ih =>
      rw [mocapLoop, List.filter_cons]
      cases ht : inst.tracked rb.ID with
      | none =>
        have hd : isDelivered inst rb = false := by simp [isDelivered, ht]
        simpa [hd] using ih
      | some v =>
        by_cases hb : rb.params % 2 = 1
        · have hl : Int.land rb.params 1 ≠ 0 := (land_one_ne_zero _).2 hb
          have hd : isDelivered inst rb = true := by simp [isDelivered, ht, hb]
          simp only [hd, if_true, hl, ne_eq, not_false_eq_true, decide_True, Bool.not_true,
            Bool.false_eq_true, if_false]
          exact List.Forall₂.cons ⟨ht, rfl, rfl⟩ ih
        · have hl : Int.land rb.params 1 = 0 := by
            by_contra hne
            exact hb ((land_one_ne_zero _).1 hne)
          have hd : isDelivered inst rb = false := by simp [isDelivered, ht, hb]
          simpa [hd, hl] using ih
  refine ⟨h, h.length_eq.symm, ?_, ?_⟩
  · intro rb
    simp only [isDelivered, Bool.and_eq_true, decide_eq_true_eq, Option.isSome_iff_exists]
    rw [land_one_ne_zero]
  · intro p
    rw [land_one_ne_zero]
    cases p with
    | ofNat n =>
      show (n : Int) % 2 = 1 ↔ Nat.testBit n 0 = true
      rw [Nat.testBit_zero, decide_eq_true_eq]
      omega
    | negSucc m =>
      show Int.negSucc m % 2 = 1 ↔ (!Nat.testBit m 0) = true
      rw [Nat.testBit_zero, Int.negSucc_eq]
      rcases Nat.mod_two_eq_zero_or_one m with h | h <;> simp [h] <;> omega

/-- C17: `check(Trajectory, line)` only appends. The error list after the
call is the list before it followed by the appended errors, so the list before
the call is a prefix of it, entry by entry and in the same order, and every
appended error carries the given line. -/
theorem checkTraj_appends (c : FeasibilityChecker) (g : ℚ) (traj : Trajectory) (line : Int) :
    (c.checkTraj g traj line).2.errors = c.errors ++ trajAppended c g traj line ∧
      c.errors <+: (c.checkTraj g traj line).2.errors ∧
      (c.checkTraj g traj line).2.errors.take c.errors.length = c.errors ∧
      ∀ e ∈ trajAppended c g traj line, e.line = line := by
  have h : (c.checkTraj g traj line).2.errors = c.errors ++ trajAppended c g traj line := by
    rw [trajAppended_eq]
    exact checkTraj_errors c g traj line
  refine ⟨h, ?_, ?_, ?_⟩
  · rw [h]
    exact List.prefix_append _ _
  · rw [h, List.take_left]
  · intro e he
    rw [trajAppended_eq] at he
    exact ((trajErrors_spec g traj line).2.2.2.1 e he).1

/-- C17, witness: the checker with one earlier error and the path with the
speed 9 on `[0, 0.03)`; the earlier error stays in front and the appended
error carries the line 7. -/
theorem checkTraj_appends_witness :
    ((FeasibilityChecker.mk [⟨3, "earlier"⟩]).checkTraj 9.8
        (linePath ⟨0, 0, 0⟩ ⟨9, 0, 0⟩ 0 0.03) 7).2.errors =
        [⟨3, "earlier"⟩, ⟨7, "Going too fast!"⟩] ∧
      (⟨7, "Going too fast!"⟩ : FeasibilityError) ∈
        trajAppended ⟨[⟨3, "earlier"⟩]⟩ 9.8 (linePath ⟨0, 0, 0⟩ ⟨9, 0, 0⟩ 0 0.03) 7 ∧
      (⟨7, "Going too fast!"⟩ : FeasibilityError).line = 7 := by
  have hm : (⟨7, "Going too fast!"⟩ : FeasibilityError) ∈
      trajAppended ⟨[⟨3, "earlier"⟩]⟩ 9.8 (linePath ⟨0, 0, 0⟩ ⟨9, 0, 0⟩ 0 0.03) 7 := by
    rw [trajAppended_eq, trajErrors_fast_example]
    exact List.mem_singleton.2 rfl
  have h := checkTraj_appends ⟨[⟨3, "earlier"⟩]⟩ 9.8 (linePath ⟨0, 0, 0⟩ ⟨9, 0, 0⟩ 0 0.03) 7
  refine ⟨?_, hm, h.2.2.2 _ hm⟩
  rw [h.1, trajAppended_eq, trajErrors_fast_example]
  rfl

/-- C19, counterexample: with the double operations, for the child at
`(1, 0, 0)`, identity matrices and the translations `(2^54, 0, 0)` and
`(-2^54, 0, 0)`, the nested transform evaluates to the position `(0, 0, 0)`
(the sum `1 + 2^54` is rounded to `2^54`) and the transform by
`(M2 * M1, M2 * P1 + P2)` to the position `(1, 0, 0)`. -/
theorem transformed_compose_rounds :
    ((TransformedTrajectoryDouble
        (TransformedTrajectoryDouble (linePath ⟨1, 0, 0⟩ ⟨0, 0, 0⟩ 0 1) Matrix3d.identity
          ⟨18014398509481984, 0, 0⟩ 0 1)
        Matrix3d.identity ⟨-18014398509481984, 0, 0⟩ 0 1).evaluate 0).position = ⟨0, 0, 0⟩ ∧
      ((TransformedTrajectoryDouble (linePath ⟨1, 0, 0⟩ ⟨0, 0, 0⟩ 0 1)
        (Matrix3d.identity.mulMatDouble Matrix3d.identity)
        ((Matrix3d.identity.mulVecDouble ⟨18014398509481984, 0, 0⟩).addDouble
          ⟨-18014398509481984, 0, 0⟩)
        0 1).evaluate 0).position = ⟨1, 0, 0⟩ ∧
      (TransformedTrajectoryDouble
        (TransformedTrajectoryDouble (linePath ⟨1, 0, 0⟩ ⟨0, 0, 0⟩ 0 1) Matrix3d.identity
          ⟨18014398509481984, 0, 0⟩ 0 1)
        Matrix3d.identity ⟨-18014398509481984, 0, 0⟩ 0 1).evaluate 0 ≠
      (TransformedTrajectoryDouble (linePath ⟨1, 0, 0⟩ ⟨0, 0, 0⟩ 0 1)
        (Matrix3d.identity.mulMatDouble Matrix3d.identity)
        ((Matrix3d.identity.mulVecDouble ⟨18014398509481984, 0, 0⟩).addDouble
          ⟨-18014398509481984, 0, 0⟩)
        0 1).evaluate 0 := by
  obtain ⟨r0, r1, _, _, rb, rc⟩ := roundDouble_values
  have h1 : ((TransformedTrajectoryDouble
        (TransformedTrajectoryDouble (linePath ⟨1, 0, 0⟩ ⟨0, 0, 0⟩ 0 1) Matrix3d.identity
          ⟨18014398509481984, 0, 0⟩ 0 1)
        Matrix3d.identity ⟨-18014398509481984, 0, 0⟩ 0 1).evaluate 0).position = ⟨0, 0, 0⟩ := by
    norm_num [TransformedTrajectoryDouble, Matrix3d.mulVecDouble, Vector3d.addDouble, addDouble,
      mulDouble, linePath, Matrix3d.identity, r0, r1, rb, rc]
  have h2 : ((TransformedTrajectoryDouble (linePath ⟨1, 0, 0⟩ ⟨0, 0, 0⟩ 0 1)
        (Matrix3d.identity.mulMatDouble Matrix3d.identity)
        ((Matrix3d.identity.mulVecDouble ⟨18014398509481984, 0, 0⟩).addDouble
          ⟨-18014398509481984, 0, 0⟩)
        0 1).evaluate 0).position = ⟨1, 0, 0⟩ := by
    norm_num [TransformedTrajectoryDouble, Matrix3d.mulVecDouble, Matrix3d.mulMatDouble,
      Vector3d.addDouble, addDouble, mulDouble, linePath, Matrix3d.identity, r0, r1, rb, rc]
  refine ⟨h1, h2, ?_⟩
  intro h
  have h3 := congrArg (fun s => s.position.x) h
  simp only [h1, h2] at h3
  norm_num at h3

/-- C19, amended: nested transforms compose as affine maps in exact
arithmetic, and in doubles as far as the operations are exact. With each
double taken for the number that it stands for and unrounded operations, the
transform by `(M2, P2)` of the transform by `(M1, P1)` of `x` evaluates, in
position, velocity and acceleration, to the same state as the transform of `x`
by `(M2 * M1, M2 * P1 + P2)`, for every input; with the double operations the
two evaluate to the same state whenever both evaluations are exact, that is,
no operation in them is rounded. -/
theorem transformed_compose (x : Trajectory) (m1 m2 : Matrix3d) (p1 p2 : Vector3d)
    (t1 t2 u1 u2 v1 v2 t : ℚ) :
    (TransformedTrajectory (TransformedTrajectory x m1 p1 t1 t2) m2 p2 u1 u2).evaluate t =
        (TransformedTrajectory x (m2.mul m1) (m2.mulVec p1 + p2) v1 v2).evaluate t ∧
      ((TransformedTrajectoryDouble (TransformedTrajectoryDouble x m1 p1 t1 t2) m2 p2
            u1 u2).evaluate t =
          (TransformedTrajectory (TransformedTrajectory x m1 p1 t1 t2) m2 p2 u1 u2).evaluate t →
        (TransformedTrajectoryDouble x (m2.mulMatDouble m1)
            ((m2.mulVecDouble p1).addDouble p2) v1 v2).evaluate t =
          (TransformedTrajectory x (m2.mul m1) (m2.mulVec p1 + p2) v1 v2).evaluate t →
        (TransformedTrajectoryDouble (TransformedTrajectoryDouble x m1 p1 t1 t2) m2 p2
            u1 u2).evaluate t =
          (TransformedTrajectoryDouble x (m2.mulMatDouble m1)
            ((m2.mulVecDouble p1).addDouble p2) v1 v2).evaluate t) := by
  have h : (TransformedTrajectory (TransformedTrajectory x m1 p1 t1 t2) m2 p2 u1 u2).evaluate t =
      (TransformedTrajectory x (m2.mul m1) (m2.mulVec p1 + p2) v1 v2).evaluate t := by
    simp only [TransformedTrajectory, mul_mulVec, mulVec_add, add_assoc_vec]
  exact ⟨h, fun hN hC => hN.trans (h.trans hC.symm)⟩

/-- C19, witness: the child at `(1, 0, 0)`, identity matrices and the
translations `(1, 0, 0)` and `(1, 0, 0)`; every operation is exact and both
sides evaluate to the position `(3, 0, 0)`. -/
theorem transformed_compose_witness :
    (TransformedTrajectoryDouble
          (TransformedTrajectoryDouble (linePath ⟨1, 0, 0⟩ ⟨0, 0, 0⟩ 0 1) Matrix3d.identity
            ⟨1, 0, 0⟩ 0 1)
          Matrix3d.identity ⟨1, 0, 0⟩ 0 1).evaluate 0 =
        (TransformedTrajectory
          (TransformedTrajectory (linePath ⟨1, 0, 0⟩ ⟨0, 0, 0⟩ 0 1) Matrix3d.identity
            ⟨1, 0, 0⟩ 0 1)
          Matrix3d.identity ⟨1, 0, 0⟩ 0 1).evaluate 0 ∧
      (TransformedTrajectoryDouble (linePath ⟨1, 0, 0⟩ ⟨0, 0, 0⟩ 0 1)
          (Matrix3d.identity.mulMatDouble Matrix3d.identity)
          ((Matrix3d.identity.mulVecDouble ⟨1, 0, 0⟩).addDouble ⟨1, 0, 0⟩) 0 1).evaluate 0 =
        (TransformedTrajectory (linePath ⟨1, 0, 0⟩ ⟨0, 0, 0⟩ 0 1)
          (Matrix3d.identity.mul Matrix3d.identity)
          (Matrix3d.identity.mulVec ⟨1, 0, 0⟩ + ⟨1, 0, 0⟩) 0 1).evaluate 0 ∧
      (TransformedTrajectoryDouble
          (TransformedTrajectoryDouble (linePath ⟨1, 0, 0⟩ ⟨0, 0, 0⟩ 0 1) Matrix3d.identity
            ⟨1, 0, 0⟩ 0 1)
          Matrix3d.identity ⟨1, 0, 0⟩ 0 1).evaluate 0 =
        (TransformedTrajectoryDouble (linePath ⟨1, 0, 0⟩ ⟨0, 0, 0⟩ 0 1)
          (Matrix3d.identity.mulMatDouble Matrix3d.identity)
          ((Matrix3d.identity.mulVecDouble ⟨1, 0, 0⟩).addDouble ⟨1, 0, 0⟩) 0 1).evaluate 0 ∧
      ((TransformedTrajectoryDouble
          (TransformedTrajectoryDouble (linePath ⟨1, 0, 0⟩ ⟨0, 0, 0⟩ 0 1) Matrix3d.identity
            ⟨1, 0, 0⟩ 0 1)
          Matrix3d.identity ⟨1, 0, 0⟩ 0 1).evaluate 0).position = ⟨3, 0, 0⟩ := by
  obtain ⟨r0, r1, r2, r3, _, _⟩ := roundDouble_values
  have hN : (TransformedTrajectoryDouble
        (TransformedTrajectoryDouble (linePath ⟨1, 0, 0⟩ ⟨0, 0, 0⟩ 0 1) Matrix3d.identity
          ⟨1, 0, 0⟩ 0 1)
        Matrix3d.identity ⟨1, 0, 0⟩ 0 1).evaluate 0 =
      (TransformedTrajectory
        (TransformedTrajectory (linePath ⟨1, 0, 0⟩ ⟨0, 0, 0⟩ 0 1) Matrix3d.identity
          ⟨1, 0, 0⟩ 0 1)
        Matrix3d.identity ⟨1, 0, 0⟩ 0 1).evaluate 0 := by
    norm_num [TransformedTrajectoryDouble, TransformedTrajectory, Matrix3d.mulVecDouble,
      Matrix3d.mulVec, Vector3d.addDouble, add_def_vec, addDouble, mulDouble, linePath,
      Matrix3d.identity, Vector3d.zero, r0, r1, r2, r3]
  have hC : (TransformedTrajectoryDouble (linePath ⟨1, 0, 0⟩ ⟨0, 0, 0⟩ 0 1)
        (Matrix3d.identity.mulMatDouble Matrix3d.identity)
        ((Matrix3d.identity.mulVecDouble ⟨1, 0, 0⟩).addDouble ⟨1, 0, 0⟩) 0 1).evaluate 0 =
      (TransformedTrajectory (linePath ⟨1, 0, 0⟩ ⟨0, 0, 0⟩ 0 1)
        (Matrix3d.identity.mul Matrix3d.identity)
        (Matrix3d.identity.mulVec ⟨1, 0, 0⟩ + ⟨1, 0, 0⟩) 0 1).evaluate 0 := by
    norm_num [TransformedTrajectoryDouble, TransformedTrajectory, Matrix3d.mulVecDouble,
      Matrix3d.mulMatDouble, Matrix3d.mul, Matrix3d.mulVec, Vector3d.addDouble, add_def_vec,
      addDouble, mulDouble, linePath, Matrix3d.identity, Vector3d.zero, r0, r1, r2, r3]
  refine ⟨hN, hC, (transformed_compose _ _ _ _ _ 0 1 0 1 0 1 0).2 hN hC, ?_⟩
  norm_num [TransformedTrajectoryDouble, Matrix3d.mulVecDouble, Vector3d.addDouble, addDouble,
    mulDouble, linePath, Matrix3d.identity, r0, r1, r2, r3]

end tansa
